import Mathlib

/-!
Shallow embedding of `etl_pipeline/transforms/plot_dataset.py` (the fusion /
scoring core of the ETL pipeline) and verification of the frozen claims about
it.

Modelling conventions:

* Python floats are modelled as rationals (`ℚ`); the pipeline only performs
  field arithmetic and comparisons on them.
* A raw JSON numeric field is modelled as `Option ℚ`: the value that
  `_to_float` extracts from it (`none` when the field is absent or
  unparseable, which `_to_float` maps to `None`).
* UTC instants are modelled as `ℤ` (epoch seconds).  A raw timestamp field is
  `RawTime`: either JSON null / an absent key (both yield `None` in
  `row.get(...)` and in `_to_dt`), or a string together with the instant
  `datetime.fromisoformat` normalises it to (`none` when parsing raises).
  `datetime.isoformat()` of UTC-normalised datetimes is canonical, and such
  strings compare lexicographically exactly as their instants, so the
  `hour_utc` output field is modelled by the instant itself and the string
  comparisons `feature_row["hour_utc"] > ...` by integer comparison.
* `_haversine_km` computes a great-circle distance with `sin`/`cos`/`atan2`,
  which have no executable exact model; the embedding abstracts it as an
  explicit function parameter `haversine` threaded to the call sites, exactly
  where the source calls `_haversine_km`.  Claims about distances quantify
  over this parameter or constrain it in hypotheses.
* Python dicts keyed by strings are association lists with insert-or-replace
  (`dict_set`), which preserves key insertion order exactly as CPython does;
  `.values()` is `List.map Prod.snd`.
* `datetime.now(timezone.utc)`, read once on entry of `build_plot_tables`, is
  the explicit parameter `now_utc`.
-/

/-- `_clip01`: `max(0.0, min(value, 1.0))`. -/
def clip01 (value : ℚ) : ℚ := max 0 (min value 1)

/-- Python `x or default` applied to the result of `_to_float`: the default is
used when the parsed value is falsy, i.e. absent/unparseable (`None`) or equal
to `0.0`. -/
def py_or (v : Option ℚ) (default : ℚ) : ℚ :=
  match v with
  | none => default
  | some x => if x = 0 then default else x

/-- Round half to even, the rounding mode of Python's builtin `round`. -/
def rhe (x : ℚ) : ℤ :=
  if x - ⌊x⌋ < 1/2 then ⌊x⌋
  else if 1/2 < x - ⌊x⌋ then ⌊x⌋ + 1
  else if 2 ∣ ⌊x⌋ then ⌊x⌋ else ⌊x⌋ + 1

/-- Python `round(x, p)` idealised over the rationals. -/
def py_round (p : ℕ) (x : ℚ) : ℚ := (rhe (x * 10 ^ p) : ℚ) / 10 ^ p

/-- `_risk_level`. -/
def risk_level (score : ℚ) : String :=
  if 0.67 ≤ score then "high"
  else if 0.34 ≤ score then "medium"
  else "low"

/-- `_risk_hint` (the source duplicates the thresholds instead of calling
`_risk_level`). -/
def risk_hint (frp confidence : ℚ) : String :=
  let score := 0.6 * clip01 (frp / 20) + 0.4 * clip01 confidence
  if 0.67 ≤ score then "high"
  else if 0.34 ≤ score then "medium"
  else "low"

/-- ASCII lower-casing of a character, as `str.lower` acts on the crop-type
strings that occur in the registry (the source data is ASCII). -/
def lower_char (c : Char) : Char :=
  if 'A' ≤ c ∧ c ≤ 'Z' then Char.ofNat (c.toNat + 32) else c

/-- Whitespace test used by `str.strip` (ASCII fragment). -/
def is_space (c : Char) : Bool := c = ' ' ∨ c = '\t' ∨ c = '\n' ∨ c = '\r'

/-- Python `s.strip().lower()` on ASCII strings. -/
def strip_lower (s : String) : String :=
  String.mk ((((s.data.dropWhile is_space).reverse.dropWhile is_space).reverse).map lower_char)

/-- `_crop_factor`. -/
def crop_factor (crop_type : String) : ℚ :=
  let crop := strip_lower crop_type
  if crop = "grape" ∨ crop = "grapes" ∨ crop = "vineyard" then 1.15
  else if crop = "almond" ∨ crop = "walnut" ∨ crop = "nuts" ∨ crop = "nut" then 1.05
  else 1

/-- A raw timestamp field value: JSON null (or an absent key — `row.get`
yields `None` for both), or a string `s` together with the UTC instant
`_to_dt` normalises it to (`none` when `datetime.fromisoformat` raises). -/
inductive RawTime where
  | null : RawTime
  | str (s : String) (parsed : Option ℤ) : RawTime

/-- `_to_dt`: `None` on null/absent or unparseable values, otherwise the
UTC-normalised instant. -/
def to_dt : RawTime → Option ℤ
  | .null => none
  | .str _ parsed => parsed

/-- The sort key `row.get("event_hour_utc", "")` used when sorting a weather
series: the raw string (`""` when the key is absent). -/
def raw_key : RawTime → String
  | .null => ""
  | .str s _ => s

/-- Lexicographic `≤` on character lists: how Python compares strings. -/
def lex_le : List Char → List Char → Bool
  | [], _ => true
  | _ :: _, [] => false
  | a :: as, b :: bs => if a < b then true else if b < a then false else lex_le as bs

/-- Python string `≤`. -/
def str_le (a b : String) : Bool := lex_le a.data b.data

/-- One FIRMS (fire detection) JSONL record, restricted to the fields the
fusion core reads. -/
structure FireRow where
  acquired_at_utc : RawTime
  latitude : Option ℚ
  longitude : Option ℚ
  frp : Option ℚ
  confidence : Option ℚ

/-- One Open-Meteo (weather) JSONL record, restricted to the fields the
fusion core reads. -/
structure WeatherRow where
  latitude : Option ℚ
  longitude : Option ℚ
  event_hour_utc : RawTime
  wind_speed_10m : Option ℚ
  temperature_2m : Option ℚ
  relative_humidity_2m : Option ℚ

/-- A JSON value tree for GeoJSON coordinates (numbers and nested arrays). -/
inductive CoordVal where
  | num (q : ℚ)
  | arr (l : List CoordVal)

/-- A parsed GeoJSON geometry dict: its `"type"` and `"coordinates"`
members. -/
structure Geometry where
  type_tag : Option String
  coordinates : Option CoordVal

/-- `FarmAsset` (already loaded from CSV; `_load_farms` only stores a
`boundary_geometry` that passed `_is_polygon_geometry`, but nothing below
relies on that). -/
structure FarmAsset where
  farm_id : String
  farm_name : String
  latitude : ℚ
  longitude : ℚ
  crop_type : String
  boundary_geometry : Option Geometry

/-- One CDL (land-cover) JSONL record, restricted to the fields read. -/
structure CdlRow where
  point_id : Option String
  cdl_class_code : Option ℤ

/-- The per-(farm, hour) feature row built by `_compute_feature_row`. -/
structure FeatureRow where
  farm_id : String
  farm_name : String
  crop_type : String
  latitude : ℚ
  longitude : ℚ
  hour_utc : ℤ
  risk_score : ℚ
  risk_level : String
  top_driver : String
  fire_proximity : ℚ
  fire_intensity : ℚ
  smoke_transport : ℚ
  heat_stress : ℚ
  fire_count_24h : ℕ
  frp_sum_24h : ℚ
  firms_min_distance_km : ℚ
  wind_speed_10m : ℚ
  temperature_2m : ℚ
  relative_humidity_2m : ℚ
  cdl_class_code : Option ℤ

/-- A `map_farm_status` row (`_to_farm_status` projection). -/
structure FarmStatus where
  farm_id : String
  farm_name : String
  crop_type : String
  lat : ℚ
  lon : ℚ
  hour_utc : ℤ
  risk_score : ℚ
  risk_level : String
  top_driver : String
  cdl_class_code : Option ℤ

/-- A `map_fire_points` entry. -/
structure FirePoint where
  id : String
  lat : ℚ
  lon : ℚ
  time_utc : RawTime
  frp : ℚ
  confidence : ℚ
  risk_hint : String

/-- One GeoJSON feature of `map_farm_boundaries` (properties snapshot,
geometry, provenance tag). -/
structure BoundaryFeature where
  farm_id : String
  farm_name : String
  crop_type : String
  risk_score : ℚ
  risk_level : String
  top_driver : String
  hour_utc : ℤ
  cdl_class_code : Option ℤ
  boundary_source : String
  geometry : Geometry

/-- The `map_farm_boundaries` FeatureCollection. -/
structure FeatureCollection where
  features : List BoundaryFeature

/-- The four output tables of `build_plot_tables`. -/
structure PlotTables where
  map_fire_points : List FirePoint
  map_farm_status : List FarmStatus
  map_farm_boundaries : FeatureCollection
  chart_farm_timeseries : List FeatureRow

/-- Insert-or-replace on a string-keyed association list: CPython dict
assignment `m[k] = v` (an existing key keeps its position, a new key goes to
the end). -/
def dict_set {α : Type} (m : List (String × α)) (k : String) (v : α) :
    List (String × α) :=
  match m with
  | [] => [(k, v)]
  | kv :: rest => if kv.1 = k then (k, v) :: rest else kv :: dict_set rest k v

/-- Dict lookup `m.get(k)`. -/
def dict_get {α : Type} (m : List (String × α)) (k : String) : Option α :=
  (m.find? (fun kv => kv.1 == k)).map (fun kv => kv.2)

/-- `{farm.farm_id: farm for farm in farms}` (last duplicate wins). -/
def farms_by_id_of (farms : List FarmAsset) : List (String × FarmAsset) :=
  farms.foldl (fun m f => dict_set m f.farm_id f) []

/-- `cdl_lookup = {row.get("point_id"): row for row in cdl_rows}` followed by
`cdl_lookup.get(farm_id)`: the last CDL row whose `point_id` equals the
farm id (rows with a null/absent `point_id` sit under the `None` key and are
never retrieved by a string key). -/
def cdl_lookup_get (cdl_rows : List CdlRow) (farm_id : String) : Option CdlRow :=
  cdl_rows.reverse.find? (fun r => r.point_id == some farm_id)

/-- `grouped.setdefault((lat, lon), []).append(row)`: append `row` to the
series of `key`, creating the key at the end on first sight. -/
def group_add (acc : List ((ℚ × ℚ) × List WeatherRow)) (key : ℚ × ℚ)
    (row : WeatherRow) : List ((ℚ × ℚ) × List WeatherRow) :=
  match acc with
  | [] => [(key, [row])]
  | kv :: rest =>
    if kv.1 = key then (kv.1, kv.2 ++ [row]) :: rest
    else kv :: group_add rest key row

/-- `series.sort(key=lambda r: r.get("event_hour_utc", ""))`: stable sort by
the raw timestamp string. -/
def sort_series (series : List WeatherRow) : List WeatherRow :=
  series.mergeSort (fun a b => str_le (raw_key a.event_hour_utc) (raw_key b.event_hour_utc))

/-- The loop body of `_group_weather_by_coord`: skip rows with unparseable
coordinates, otherwise group under the exact `(lat, lon)` pair. -/
def group_step (acc : List ((ℚ × ℚ) × List WeatherRow)) (row : WeatherRow) :
    List ((ℚ × ℚ) × List WeatherRow) :=
  match row.latitude, row.longitude with
  | some lat, some lon => group_add acc (lat, lon) row
  | _, _ => acc

/-- `_group_weather_by_coord`. -/
def group_weather_by_coord (rows : List WeatherRow) :
    List ((ℚ × ℚ) × List WeatherRow) :=
  (rows.foldl group_step []).map (fun kv => (kv.1, sort_series kv.2))

/-- The loop body of `_nearest_weather_series`: keep the strictly smaller
distance (`best_distance is None or distance < best_distance`), so the
first-seen coordinate wins ties. -/
def nearest_step (haversine : ℚ → ℚ → ℚ → ℚ → ℚ) (farm : FarmAsset)
    (best : Option (ℚ × List WeatherRow)) (kv : (ℚ × ℚ) × List WeatherRow) :
    Option (ℚ × List WeatherRow) :=
  let distance := haversine farm.latitude farm.longitude kv.1.1 kv.1.2
  match best with
  | none => some (distance, kv.2)
  | some b => if distance < b.1 then some (distance, kv.2) else some b

/-- `_nearest_weather_series`: linear scan; `[]` when there are no
coordinates. -/
def nearest_weather_series (haversine : ℚ → ℚ → ℚ → ℚ → ℚ) (farm : FarmAsset)
    (weather_by_coord : List ((ℚ × ℚ) × List WeatherRow)) : List WeatherRow :=
  (weather_by_coord.foldl (nearest_step haversine farm) none).elim []
    (fun b => b.2)

/-- `_match_fires_for_window`: each kept detection is returned together with
its computed `distance_km` enrichment. -/
def match_fires_for_window (haversine : ℚ → ℚ → ℚ → ℚ → ℚ)
    (firms_rows : List FireRow) (farm : FarmAsset)
    (window_start window_end : ℤ) (fire_radius_km : ℚ) : List (FireRow × ℚ) :=
  match firms_rows with
  | [] => []
  | row :: rest =>
    let tail := match_fires_for_window haversine rest farm window_start window_end fire_radius_km
    match to_dt row.acquired_at_utc with
    | none => tail
    | some acquired =>
      if acquired < window_start ∨ window_end < acquired then tail
      else
        match row.latitude, row.longitude with
        | some lat, some lon =>
          let distance := haversine farm.latitude farm.longitude lat lon
          if distance ≤ fire_radius_km then (row, distance) :: tail else tail
        | _, _ => tail

/-- Python `min(iterable, default=d)`. -/
def min_default (l : List ℚ) (d : ℚ) : ℚ :=
  match l with
  | [] => d
  | x :: xs => xs.foldl min x

/-- `max(contributions, key=contributions.get)`: the first key (in the fixed
insertion order fire_proximity, fire_intensity, smoke_transport, heat_stress)
whose weighted contribution attains the maximum. -/
def top_driver (fp fi st hs : ℚ) : String :=
  let cfp := 0.35 * fp
  let cfi := 0.25 * fi
  let cst := 0.2 * st
  let chs := 0.2 * hs
  if cfi ≤ cfp ∧ cst ≤ cfp ∧ chs ≤ cfp then "fire_proximity"
  else if cst ≤ cfi ∧ chs ≤ cfi then "fire_intensity"
  else if chs ≤ cst then "smoke_transport"
  else "heat_stress"

/-- `_compute_feature_row`. -/
def compute_feature_row (farm : FarmAsset) (weather : WeatherRow)
    (event_hour : ℤ) (matched_fires : List (FireRow × ℚ)) (crop_f : ℚ)
    (cdl_row : Option CdlRow) (fire_radius_km : ℚ) : FeatureRow :=
  let min_distance_km := min_default (matched_fires.map (fun p => p.2)) fire_radius_km
  let frp_sum_24h := (matched_fires.map (fun p => py_or p.1.frp 0)).sum
  let fire_count_24h := matched_fires.length
  let wind_speed := py_or weather.wind_speed_10m 0
  let temperature := py_or weather.temperature_2m 0
  let humidity := py_or weather.relative_humidity_2m 100
  let fire_proximity := clip01 (1 - min_distance_km / fire_radius_km)
  let fire_intensity := clip01 (frp_sum_24h / 200)
  let smoke_transport := fire_proximity * clip01 (wind_speed / 12)
  let heat_stress := clip01 ((temperature - 30) / 12) * clip01 ((60 - humidity) / 40)
  let base_risk := 0.35 * fire_proximity + 0.25 * fire_intensity
    + 0.2 * smoke_transport + 0.2 * heat_stress
  let risk_score := clip01 (base_risk * crop_f)
  { farm_id := farm.farm_id
    farm_name := farm.farm_name
    crop_type := farm.crop_type
    latitude := farm.latitude
    longitude := farm.longitude
    hour_utc := event_hour
    risk_score := py_round 4 risk_score
    risk_level := risk_level risk_score
    top_driver := top_driver fire_proximity fire_intensity smoke_transport heat_stress
    fire_proximity := py_round 4 fire_proximity
    fire_intensity := py_round 4 fire_intensity
    smoke_transport := py_round 4 smoke_transport
    heat_stress := py_round 4 heat_stress
    fire_count_24h := fire_count_24h
    frp_sum_24h := py_round 3 frp_sum_24h
    firms_min_distance_km := py_round 3 min_distance_km
    wind_speed_10m := wind_speed
    temperature_2m := temperature
    relative_humidity_2m := humidity
    cdl_class_code := cdl_row.bind (fun r => r.cdl_class_code) }

/-- `_to_farm_status`. -/
def to_farm_status (row : FeatureRow) : FarmStatus :=
  { farm_id := row.farm_id
    farm_name := row.farm_name
    crop_type := row.crop_type
    lat := row.latitude
    lon := row.longitude
    hour_utc := row.hour_utc
    risk_score := row.risk_score
    risk_level := row.risk_level
    top_driver := row.top_driver
    cdl_class_code := row.cdl_class_code }

/-- The loop body of `_build_map_fire_points`, carrying the 1-based
`enumerate` counter (the counter advances on skipped rows too). -/
def fire_points_go (idx : ℕ) : List FireRow → List FirePoint
  | [] => []
  | row :: rest =>
    match row.latitude, row.longitude with
    | some lat, some lon =>
      let confidence := py_or row.confidence 0
      let frp := py_or row.frp 0
      { id := "fire_" ++ toString idx
        lat := lat
        lon := lon
        time_utc := row.acquired_at_utc
        frp := frp
        confidence := confidence
        risk_hint := risk_hint frp confidence } :: fire_points_go (idx + 1) rest
    | _, _ => fire_points_go (idx + 1) rest

/-- `_build_map_fire_points`. -/
def build_map_fire_points (firms_rows : List FireRow) : List FirePoint :=
  fire_points_go 1 firms_rows

/-- `_is_polygon_geometry` (on `None` / non-dict values it is `False`). -/
def is_polygon_geometry : Option Geometry → Bool
  | none => false
  | some g =>
    (g.type_tag == some "Polygon" || g.type_tag == some "MultiPolygon") &&
    (match g.coordinates with
     | some (.arr l) => decide (0 < l.length)
     | _ => false)

/-- `sorted(set(round(v, 6) for v in values))` : strictly increasing list of
the distinct values (here built by ordered insertion). -/
def insert_sorted_unique (x : ℚ) : List ℚ → List ℚ
  | [] => [x]
  | y :: ys =>
    if x < y then x :: y :: ys
    else if x = y then y :: ys
    else y :: insert_sorted_unique x ys

/-- Successive differences of a list. -/
def pair_diffs : List ℚ → List ℚ
  | [] => []
  | [_] => []
  | a :: b :: rest => (b - a) :: pair_diffs (b :: rest)

/-- `_infer_grid_step`. -/
def infer_grid_step (values : List ℚ) : ℚ :=
  let unique := (values.map (py_round 6)).foldl (fun acc v => insert_sorted_unique v acc) []
  if unique.length < 2 then 0.05
  else
    let diffs := pair_diffs unique
    let positive_diffs := diffs.filter (fun d => decide (0 < d))
    match positive_diffs with
    | [] => 0.05
    | x :: xs => max 0.01 (min 0.1 (xs.foldl min x))

/-- A GeoJSON position `[lon, lat]`. -/
def coord_pair (lon lat : ℚ) : CoordVal := .arr [.num lon, .num lat]

/-- `_grid_cell_polygon`. -/
def grid_cell_polygon (lat lon half_lat half_lon : ℚ) : Geometry :=
  { type_tag := some "Polygon"
    coordinates := some (.arr [.arr [
      coord_pair (lon - half_lon) (lat - half_lat),
      coord_pair (lon + half_lon) (lat - half_lat),
      coord_pair (lon + half_lon) (lat + half_lat),
      coord_pair (lon - half_lon) (lat + half_lat),
      coord_pair (lon - half_lon) (lat - half_lat)]]) }

/-- One iteration of the feature loop of `_build_map_farm_boundaries_geojson`.
Status rows carry rational coordinates by construction, so the source's
`_to_float(row.get("lat"))`/`lon` re-parse always succeeds and its
`continue`-on-missing-coordinates branch is unreachable; every status row
yields a feature. -/
def boundary_feature (farms_by_id : List (String × FarmAsset))
    (half_lat half_lon : ℚ) (row : FarmStatus) : BoundaryFeature :=
  let props : Geometry → String → BoundaryFeature := fun geom source =>
    { farm_id := row.farm_id
      farm_name := row.farm_name
      crop_type := row.crop_type
      risk_score := row.risk_score
      risk_level := row.risk_level
      top_driver := row.top_driver
      hour_utc := row.hour_utc
      cdl_class_code := row.cdl_class_code
      boundary_source := source
      geometry := geom }
  let geometry := (dict_get farms_by_id row.farm_id).bind (fun fa => fa.boundary_geometry)
  match geometry with
  | some g =>
    if is_polygon_geometry (some g) then props g "farm_csv_geojson"
    else props (grid_cell_polygon row.lat row.lon half_lat half_lon) "inferred_grid_cell"
  | none => props (grid_cell_polygon row.lat row.lon half_lat half_lon) "inferred_grid_cell"

/-- `_build_map_farm_boundaries_geojson` (the `_to_float(...) is not None`
filters on the step inputs are identities here because status rows carry
rational coordinates). -/
def build_map_farm_boundaries_geojson (map_farm_status : List FarmStatus)
    (farms_by_id : List (String × FarmAsset)) : FeatureCollection :=
  let lat_step := infer_grid_step (map_farm_status.map (fun r => r.lat))
  let lon_step := infer_grid_step (map_farm_status.map (fun r => r.lon))
  let half_lat := lat_step * 0.42
  let half_lon := lon_step * 0.42
  { features := map_farm_status.map (boundary_feature farms_by_id half_lat half_lon) }

/-- The mutable accumulators of the farm loop. -/
structure LoopState where
  chart : List FeatureRow
  latest : List (String × FeatureRow)
  latest_observed : List (String × FeatureRow)

/-- `if latest is None or feature_row["hour_utc"] > latest["hour_utc"]:
m[farm_id] = feature_row` (string comparison of canonical ISO stamps =
instant comparison). -/
def update_latest (m : List (String × FeatureRow)) (fid : String)
    (row : FeatureRow) : List (String × FeatureRow) :=
  match dict_get m fid with
  | none => dict_set m fid row
  | some latest => if latest.hour_utc < row.hour_utc then dict_set m fid row else m

/-- The body of the inner `for weather in weather_series` loop of
`build_plot_tables`. -/
def hour_step (haversine : ℚ → ℚ → ℚ → ℚ → ℚ) (firms_rows : List FireRow)
    (fire_radius_km : ℚ) (fire_window_hours : ℤ) (now_utc : ℤ)
    (farm : FarmAsset) (crop_f : ℚ) (cdl_row : Option CdlRow)
    (st : LoopState) (weather : WeatherRow) : LoopState :=
  match to_dt weather.event_hour_utc with
  | none => st
  | some event_hour =>
    let window_start := event_hour - 3600 * fire_window_hours
    let matched_fires := match_fires_for_window haversine firms_rows farm
      window_start event_hour fire_radius_km
    let feature_row := compute_feature_row farm weather event_hour matched_fires
      crop_f cdl_row fire_radius_km
    { chart := st.chart ++ [feature_row]
      latest := update_latest st.latest farm.farm_id feature_row
      latest_observed :=
        if event_hour ≤ now_utc then update_latest st.latest_observed farm.farm_id feature_row
        else st.latest_observed }

/-- The body of the outer `for farm in farms` loop of `build_plot_tables`. -/
def farm_step (haversine : ℚ → ℚ → ℚ → ℚ → ℚ) (firms_rows : List FireRow)
    (fire_radius_km : ℚ) (fire_window_hours : ℤ) (now_utc : ℤ)
    (cdl_rows : List CdlRow) (weather_by_coord : List ((ℚ × ℚ) × List WeatherRow))
    (st : LoopState) (farm : FarmAsset) : LoopState :=
  let weather_series := nearest_weather_series haversine farm weather_by_coord
  if weather_series.isEmpty then st
  else weather_series.foldl
    (hour_step haversine firms_rows fire_radius_km fire_window_hours now_utc
      farm (crop_factor farm.crop_type) (cdl_lookup_get cdl_rows farm.farm_id)) st

/-- `map_farm_status.sort(key=lambda row: row["risk_score"], reverse=True)`:
stable descending sort. -/
def sort_status (l : List FarmStatus) : List FarmStatus :=
  l.mergeSort (fun a b => decide (b.risk_score ≤ a.risk_score))

/-- `chart_rows.sort(key=lambda row: (row["farm_id"], row["hour_utc"]))`. -/
def sort_chart (l : List FeatureRow) : List FeatureRow :=
  l.mergeSort (fun a b =>
    if a.farm_id = b.farm_id then decide (a.hour_utc ≤ b.hour_utc)
    else str_le a.farm_id b.farm_id)

/-- `build_plot_tables`, as a function of the four already-parsed input
tables, the two scalar parameters, the evaluation instant `now_utc` read from
the clock on entry, and the abstracted great-circle distance. -/
def build_plot_tables (haversine : ℚ → ℚ → ℚ → ℚ → ℚ) (farms : List FarmAsset)
    (firms_rows : List FireRow) (weather_rows : List WeatherRow)
    (cdl_rows : List CdlRow) (fire_radius_km : ℚ) (fire_window_hours : ℤ)
    (now_utc : ℤ) : PlotTables :=
  let farms_by_id := farms_by_id_of farms
  let weather_by_coord := group_weather_by_coord weather_rows
  let map_fire_points := build_map_fire_points firms_rows
  let final := farms.foldl
    (farm_step haversine firms_rows fire_radius_km fire_window_hours now_utc
      cdl_rows weather_by_coord)
    { chart := [], latest := [], latest_observed := [] }
  let status_source := if final.latest_observed.isEmpty then final.latest
    else final.latest_observed
  let map_farm_status := status_source.map (fun kv => to_farm_status kv.2)
  let map_farm_boundaries := build_map_farm_boundaries_geojson map_farm_status farms_by_id
  { map_fire_points := map_fire_points
    map_farm_status := sort_status map_farm_status
    map_farm_boundaries := map_farm_boundaries
    chart_farm_timeseries := sort_chart final.chart }

/-! ## Helper lemmas -/

theorem clip01_nonneg (x : ℚ) : 0 ≤ clip01 x := le_max_left 0 _

theorem clip01_le_one (x : ℚ) : clip01 x ≤ 1 :=
  max_le zero_le_one (min_le_right x 1)

theorem clip01_eq_zero {x : ℚ} (h : x ≤ 0) : clip01 x = 0 := by
  unfold clip01
  exact max_eq_left (le_trans (min_le_left x 1) h)

theorem floor_le_rhe (x : ℚ) : ⌊x⌋ ≤ rhe x := by
  unfold rhe
  split_ifs <;> omega

theorem rhe_le_floor_add_one (x : ℚ) : rhe x ≤ ⌊x⌋ + 1 := by
  unfold rhe
  split_ifs <;> omega

theorem rhe_intCast (n : ℤ) : rhe (n : ℚ) = n := by
  unfold rhe
  rw [Int.floor_intCast]
  norm_num

theorem rhe_mono {x y : ℚ} (h : x ≤ y) : rhe x ≤ rhe y := by
  have hf : ⌊x⌋ ≤ ⌊y⌋ := Int.floor_le_floor h
  rcases lt_or_eq_of_le hf with hl | he
  · have h1 : rhe x ≤ ⌊x⌋ + 1 := rhe_le_floor_add_one x
    have h2 : ⌊y⌋ ≤ rhe y := floor_le_rhe y
    omega
  · have hfr : x - (⌊x⌋ : ℚ) ≤ y - (⌊y⌋ : ℚ) := by
      rw [← he]; linarith
    unfold rhe
    rw [← he]
    rw [← he] at hfr
    split_ifs <;> first | omega | linarith

theorem py_round_mono (p : ℕ) {x y : ℚ} (h : x ≤ y) :
    py_round p x ≤ py_round p y := by
  unfold py_round
  have hp : (0 : ℚ) < 10 ^ p := by positivity
  have hm : x * 10 ^ p ≤ y * 10 ^ p := by
    exact mul_le_mul_of_nonneg_right h (le_of_lt hp)
  gcongr
  exact_mod_cast rhe_mono hm

theorem py_round_scaled_int (p : ℕ) (n : ℤ) :
    py_round p ((n : ℚ) / 10 ^ p) = (n : ℚ) / 10 ^ p := by
  unfold py_round
  have hp : (10 : ℚ) ^ p ≠ 0 := by positivity
  rw [div_mul_cancel₀ _ hp, rhe_intCast]

theorem py_round_nonneg (p : ℕ) {x : ℚ} (h : 0 ≤ x) : 0 ≤ py_round p x := by
  have h0 : py_round p ((0 : ℤ) / 10 ^ p : ℚ) = ((0 : ℤ) : ℚ) / 10 ^ p := by
    exact_mod_cast py_round_scaled_int p 0
  have := py_round_mono p (show ((0 : ℤ) / 10 ^ p : ℚ) ≤ x by 
    simpa using h)
  simp only [Int.cast_zero, zero_div] at h0 this
  simpa [h0] using this

theorem py_round_le_one (p : ℕ) {x : ℚ} (h : x ≤ 1) : py_round p x ≤ 1 := by
  have hp : (10 : ℚ) ^ p ≠ 0 := by positivity
  have h1 : py_round p (((10 : ℤ) ^ p : ℚ) / 10 ^ p) = ((10 : ℤ) ^ p : ℚ) / 10 ^ p := by
    exact_mod_cast py_round_scaled_int p (10 ^ p)
  have hone : (((10 : ℤ) ^ p : ℚ)) / 10 ^ p = 1 := by
    push_cast
    exact div_self hp
  have := py_round_mono p (show x ≤ (((10 : ℤ) ^ p : ℚ)) / 10 ^ p by rw [hone]; exact h)
  rw [h1, hone] at this
  exact this

theorem py_round_unit (p : ℕ) {x : ℚ} (h0 : 0 ≤ x) (h1 : x ≤ 1) :
    0 ≤ py_round p x ∧ py_round p x ≤ 1 :=
  ⟨py_round_nonneg p h0, py_round_le_one p h1⟩

theorem clip01_mul_nonneg (a b : ℚ) : 0 ≤ clip01 a * clip01 b :=
  mul_nonneg (clip01_nonneg a) (clip01_nonneg b)

theorem clip01_mul_le_one (a b : ℚ) : clip01 a * clip01 b ≤ 1 := by
  calc clip01 a * clip01 b ≤ 1 * 1 :=
    mul_le_mul (clip01_le_one a) (clip01_le_one b) (clip01_nonneg b) zero_le_one
  _ = 1 := one_mul 1

/-- Every stored sub-score and the stored composite of a feature row lie in
`[0, 1]`. -/
theorem compute_feature_row_bounds (farm : FarmAsset) (weather : WeatherRow)
    (event_hour : ℤ) (matched_fires : List (FireRow × ℚ)) (crop_f : ℚ)
    (cdl_row : Option CdlRow) (fire_radius_km : ℚ) :
    (0 ≤ (compute_feature_row farm weather event_hour matched_fires crop_f cdl_row fire_radius_km).fire_proximity ∧
      (compute_feature_row farm weather event_hour matched_fires crop_f cdl_row fire_radius_km).fire_proximity ≤ 1) ∧
    (0 ≤ (compute_feature_row farm weather event_hour matched_fires crop_f cdl_row fire_radius_km).fire_intensity ∧
      (compute_feature_row farm weather event_hour matched_fires crop_f cdl_row fire_radius_km).fire_intensity ≤ 1) ∧
    (0 ≤ (compute_feature_row farm weather event_hour matched_fires crop_f cdl_row fire_radius_km).smoke_transport ∧
      (compute_feature_row farm weather event_hour matched_fires crop_f cdl_row fire_radius_km).smoke_transport ≤ 1) ∧
    (0 ≤ (compute_feature_row farm weather event_hour matched_fires crop_f cdl_row fire_radius_km).heat_stress ∧
      (compute_feature_row farm weather event_hour matched_fires crop_f cdl_row fire_radius_km).heat_stress ≤ 1) ∧
    (0 ≤ (compute_feature_row farm weather event_hour matched_fires crop_f cdl_row fire_radius_km).risk_score ∧
      (compute_feature_row farm weather event_hour matched_fires crop_f cdl_row fire_radius_km).risk_score ≤ 1) := by
  simp only [compute_feature_row]
  exact ⟨py_round_unit 4 (clip01_nonneg _) (clip01_le_one _),
    py_round_unit 4 (clip01_nonneg _) (clip01_le_one _),
    py_round_unit 4 (clip01_mul_nonneg _ _) (clip01_mul_le_one _ _),
    py_round_unit 4 (clip01_mul_nonneg _ _) (clip01_mul_le_one _ _),
    py_round_unit 4 (clip01_nonneg _) (clip01_le_one _)⟩

/-- A property holding of every row produced by `compute_feature_row` holds
of every chart row accumulated by the hour loop. -/
theorem foldl_hour_step_chart {haversine : ℚ → ℚ → ℚ → ℚ → ℚ}
    {firms_rows : List FireRow} {fire_radius_km : ℚ}
    {fire_window_hours now_utc : ℤ} {farm : FarmAsset} {crop_f : ℚ}
    {cdl_row : Option CdlRow} {P : FeatureRow → Prop}
    (hP : ∀ weather event_hour matched,
      P (compute_feature_row farm weather event_hour matched crop_f cdl_row fire_radius_km)) :
    ∀ (series : List WeatherRow) (st : LoopState),
      (∀ r ∈ st.chart, P r) →
      ∀ r ∈ (series.foldl
        (hour_step haversine firms_rows fire_radius_km fire_window_hours now_utc farm crop_f cdl_row)
        st).chart, P r := by
  intro series
  induction series with
  | nil => intro st hst r hr; exact hst r hr
  | cons w ws ih =>
    intro st hst r hr
    refine ih (hour_step haversine firms_rows fire_radius_km fire_window_hours now_utc farm crop_f cdl_row st w) ?_ r hr
    intro r' hr'
    unfold hour_step at hr'
    rcases hdt : to_dt w.event_hour_utc with _ | eh
    · rw [hdt] at hr'
      exact hst r' hr'
    · rw [hdt] at hr'
      simp only [List.mem_append, List.mem_singleton] at hr'
      rcases hr' with hmem | heq
      · exact hst r' hmem
      · subst heq; exact hP _ _ _

/-- Lifting `foldl_hour_step_chart` through the farm loop. -/
theorem foldl_farm_step_chart {haversine : ℚ → ℚ → ℚ → ℚ → ℚ}
    {firms_rows : List FireRow} {fire_radius_km : ℚ}
    {fire_window_hours now_utc : ℤ} {cdl_rows : List CdlRow}
    {weather_by_coord : List ((ℚ × ℚ) × List WeatherRow)} {P : FeatureRow → Prop}
    (hP : ∀ farm weather event_hour matched crop_f cdl_row,
      P (compute_feature_row farm weather event_hour matched crop_f cdl_row fire_radius_km)) :
    ∀ (farms : List FarmAsset) (st : LoopState),
      (∀ r ∈ st.chart, P r) →
      ∀ r ∈ (farms.foldl
        (farm_step haversine firms_rows fire_radius_km fire_window_hours now_utc cdl_rows weather_by_coord)
        st).chart, P r := by
  intro farms
  induction farms with
  | nil => intro st hst r hr; exact hst r hr
  | cons farm fs ih =>
    intro st hst r hr
    refine ih _ ?_ r hr
    intro r' hr'
    unfold farm_step at hr'
    by_cases hempty : (nearest_weather_series haversine farm weather_by_coord).isEmpty
    · rw [if_pos hempty] at hr'
      exact hst r' hr'
    · rw [if_neg hempty] at hr'
      exact foldl_hour_step_chart (fun w eh m => hP farm w eh m _ _) _ st hst r' hr'

/-- A property holding of every row produced by `compute_feature_row` holds
of every row of the emitted time-series table. -/
theorem chart_rows_prop {haversine : ℚ → ℚ → ℚ → ℚ → ℚ}
    {farms : List FarmAsset} {firms_rows : List FireRow}
    {weather_rows : List WeatherRow} {cdl_rows : List CdlRow}
    {fire_radius_km : ℚ} {fire_window_hours now_utc : ℤ} {P : FeatureRow → Prop}
    (hP : ∀ farm weather event_hour matched crop_f cdl_row,
      P (compute_feature_row farm weather event_hour matched crop_f cdl_row fire_radius_km)) :
    ∀ r ∈ (build_plot_tables haversine farms firms_rows weather_rows cdl_rows
      fire_radius_km fire_window_hours now_utc).chart_farm_timeseries, P r := by
  intro r hr
  unfold build_plot_tables at hr
  simp only at hr
  unfold sort_chart at hr
  rw [List.mem_mergeSort] at hr
  exact foldl_farm_step_chart hP farms _ (by intro x hx; cases hx) r hr

/-! ## Shared concrete sample inputs (used by witnesses and counterexamples) -/

/-- A vineyard farm at the origin with no registered boundary. -/
def sample_farm_a : FarmAsset :=
  { farm_id := "farm_a", farm_name := "Farm A", latitude := 0, longitude := 0,
    crop_type := "grape", boundary_geometry := none }

/-- A weather record at the origin for hour 0, with all numeric variables
absent. -/
def sample_weather_a : WeatherRow :=
  { latitude := some 0, longitude := some 0,
    event_hour_utc := .str "2024-01-01T00:00:00+00:00" (some 0),
    wind_speed_10m := none, temperature_2m := none,
    relative_humidity_2m := none }

/-- A distance oracle that reports 0 km between any two points (realised by
`_haversine_km` whenever the two coordinate pairs coincide, as they do in the
concrete runs below). -/
def dist_zero : ℚ → ℚ → ℚ → ℚ → ℚ := fun _ _ _ _ => 0

/-- The single feature row of the run on `sample_farm_a`/`sample_weather_a`
with no fire detections. -/
def sample_row_a : FeatureRow :=
  { farm_id := "farm_a", farm_name := "Farm A", crop_type := "grape",
    latitude := 0, longitude := 0, hour_utc := 0,
    risk_score := 0, risk_level := "low", top_driver := "fire_proximity",
    fire_proximity := 0, fire_intensity := 0, smoke_transport := 0,
    heat_stress := 0, fire_count_24h := 0, frp_sum_24h := 0,
    firms_min_distance_km := 50, wind_speed_10m := 0, temperature_2m := 0,
    relative_humidity_2m := 100, cdl_class_code := none }

/-- Concrete evaluation of the assembler on the one-farm/one-hour sample. -/
theorem sample_run_a_chart_eq :
    (build_plot_tables dist_zero [sample_farm_a] [] [sample_weather_a] [] 50 24
      0).chart_farm_timeseries = [sample_row_a] := by
  norm_num [sample_row_a, build_plot_tables, farms_by_id_of, group_weather_by_coord,
    group_step, group_add, sort_series, nearest_weather_series, nearest_step, farm_step, hour_step,
    to_dt, raw_key, dict_set, dict_get, cdl_lookup_get, crop_factor,
    strip_lower, lower_char, is_space, match_fires_for_window,
    compute_feature_row, min_default, py_or, clip01, top_driver, risk_level,
    py_round, rhe, update_latest, to_farm_status, sort_chart, sort_status,
    build_map_fire_points, fire_points_go, build_map_farm_boundaries_geojson,
    boundary_feature, infer_grid_step, insert_sorted_unique, pair_diffs,
    sample_farm_a, sample_weather_a, dist_zero]

/-! ## C1 -/

/-- C1: for every valid input, every emitted feature row's four sub-scores
(`fire_proximity`, `fire_intensity`, `smoke_transport`, `heat_stress`) and
its composite `risk_score` all lie in the closed interval `[0, 1]`. -/
theorem C1_scores_in_unit_interval (haversine : ℚ → ℚ → ℚ → ℚ → ℚ)
    (farms : List FarmAsset) (firms_rows : List FireRow)
    (weather_rows : List WeatherRow) (cdl_rows : List CdlRow)
    (fire_radius_km : ℚ) (fire_window_hours now_utc : ℤ) (row : FeatureRow)
    (hrow : row ∈ (build_plot_tables haversine farms firms_rows weather_rows
      cdl_rows fire_radius_km fire_window_hours now_utc).chart_farm_timeseries) :
    (0 ≤ row.fire_proximity ∧ row.fire_proximity ≤ 1) ∧
    (0 ≤ row.fire_intensity ∧ row.fire_intensity ≤ 1) ∧
    (0 ≤ row.smoke_transport ∧ row.smoke_transport ≤ 1) ∧
    (0 ≤ row.heat_stress ∧ row.heat_stress ≤ 1) ∧
    (0 ≤ row.risk_score ∧ row.risk_score ≤ 1) :=
  chart_rows_prop
    (P := fun r =>
      (0 ≤ r.fire_proximity ∧ r.fire_proximity ≤ 1) ∧
      (0 ≤ r.fire_intensity ∧ r.fire_intensity ≤ 1) ∧
      (0 ≤ r.smoke_transport ∧ r.smoke_transport ≤ 1) ∧
      (0 ≤ r.heat_stress ∧ r.heat_stress ≤ 1) ∧
      (0 ≤ r.risk_score ∧ r.risk_score ≤ 1))
    (fun farm weather event_hour matched crop_f cdl_row =>
      compute_feature_row_bounds farm weather event_hour matched crop_f cdl_row
        fire_radius_km)
    row hrow

/-- Witness for C1: the sample run emits a row, and the bounds hold there. -/
theorem C1_scores_in_unit_interval_witness :
    (0 ≤ sample_row_a.fire_proximity ∧ sample_row_a.fire_proximity ≤ 1) ∧
    (0 ≤ sample_row_a.fire_intensity ∧ sample_row_a.fire_intensity ≤ 1) ∧
    (0 ≤ sample_row_a.smoke_transport ∧ sample_row_a.smoke_transport ≤ 1) ∧
    (0 ≤ sample_row_a.heat_stress ∧ sample_row_a.heat_stress ≤ 1) ∧
    (0 ≤ sample_row_a.risk_score ∧ sample_row_a.risk_score ≤ 1) :=
  C1_scores_in_unit_interval dist_zero [sample_farm_a] [] [sample_weather_a] []
    50 24 0 sample_row_a
    (by rw [sample_run_a_chart_eq]; exact List.mem_singleton.mpr rfl)

/-! ## The matcher characterisation (shared by several claims) -/

/-- `(row, d)` is in the matcher output iff `row` is an input row whose
acquisition timestamp parses into the closed window, whose coordinates parse,
and whose distance `d` to the farm is at most the radius. -/
theorem match_fires_mem_iff (haversine : ℚ → ℚ → ℚ → ℚ → ℚ) (farm : FarmAsset)
    (window_start window_end : ℤ) (fire_radius_km : ℚ) :
    ∀ (rows : List FireRow) (row : FireRow) (d : ℚ),
      (row, d) ∈ match_fires_for_window haversine rows farm window_start
        window_end fire_radius_km ↔
      (row ∈ rows ∧
       (∃ t, to_dt row.acquired_at_utc = some t ∧ window_start ≤ t ∧ t ≤ window_end) ∧
       (∃ lat lon, row.latitude = some lat ∧ row.longitude = some lon ∧
         d = haversine farm.latitude farm.longitude lat lon ∧ d ≤ fire_radius_km)) := by
  intro rows
  induction rows with
  | nil =>
    intro row d
    simp [match_fires_for_window]
  | cons hd tl ih =>
    intro row d
    simp only [match_fires_for_window]
    rcases hdt : to_dt hd.acquired_at_utc with _ | t0
    · simp only [hdt, List.mem_cons]
      rw [ih row d]
      constructor
      · rintro ⟨hmem, hC⟩
        exact ⟨Or.inr hmem, hC⟩
      · rintro ⟨hor, hC⟩
        rcases hor with heq | hmem
        · rcases hC.1 with ⟨t, ht, _, _⟩
          rw [heq, hdt] at ht
          cases ht
        · exact ⟨hmem, hC⟩
    · by_cases hwin : t0 < window_start ∨ window_end < t0
      · simp only [hdt, if_pos hwin, List.mem_cons]
        rw [ih row d]
        constructor
        · rintro ⟨hmem, hC⟩
          exact ⟨Or.inr hmem, hC⟩
        · rintro ⟨hor, hC⟩
          rcases hor with heq | hmem
          · rcases hC.1 with ⟨t, ht, hge, hle⟩
            rw [heq, hdt] at ht
            injection ht with ht'
            subst ht'
            rcases hwin with h | h
            · omega
            · omega
          · exact ⟨hmem, hC⟩
      · rcases hlat : hd.latitude with _ | la
        · simp only [hdt, if_neg hwin, hlat, List.mem_cons]
          rw [ih row d]
          constructor
          · rintro ⟨hmem, hC⟩
            exact ⟨Or.inr hmem, hC⟩
          · rintro ⟨hor, hC⟩
            rcases hor with heq | hmem
            · rcases hC.2 with ⟨la, lo, hla, _, _, _⟩
              rw [heq, hlat] at hla
              cases hla
            · exact ⟨hmem, hC⟩
        · rcases hlon : hd.longitude with _ | lo
          · simp only [hdt, if_neg hwin, hlat, hlon, List.mem_cons]
            rw [ih row d]
            constructor
            · rintro ⟨hmem, hC⟩
              exact ⟨Or.inr hmem, hC⟩
            · rintro ⟨hor, hC⟩
              rcases hor with heq | hmem
              · rcases hC.2 with ⟨la', lo', _, hlo', _, _⟩
                rw [heq, hlon] at hlo'
                cases hlo'
              · exact ⟨hmem, hC⟩
          · by_cases hdist : haversine farm.latitude farm.longitude la lo ≤ fire_radius_km
            · simp only [hdt, if_neg hwin, hlat, hlon, if_pos hdist, List.mem_cons]
              rw [ih row d]
              constructor
              · rintro (hpair | ⟨hmem, hC⟩)
                · injection hpair with h1 h2
                  subst h1
                  subst h2
                  refine ⟨Or.inl rfl, ⟨t0, hdt, ?_, ?_⟩,
                    ⟨la, lo, hlat, hlon, rfl, hdist⟩⟩
                  · omega
                  · omega
                · exact ⟨Or.inr hmem, hC⟩
              · rintro ⟨hor, hC⟩
                rcases hor with heq | hmem
                · rcases hC.2 with ⟨la', lo', hla', hlo', hdeq, _⟩
                  subst heq
                  rw [hlat] at hla'
                  rw [hlon] at hlo'
                  injection hla' with hla''
                  injection hlo' with hlo''
                  subst hla''
                  subst hlo''
                  subst hdeq
                  exact Or.inl rfl
                · exact Or.inr ⟨hmem, hC⟩
            · simp only [hdt, if_neg hwin, hlat, hlon, if_neg hdist, List.mem_cons]
              rw [ih row d]
              constructor
              · rintro ⟨hmem, hC⟩
                exact ⟨Or.inr hmem, hC⟩
              · rintro ⟨hor, hC⟩
                rcases hor with heq | hmem
                · rcases hC.2 with ⟨la', lo', hla', hlo', hdeq, hdle⟩
                  subst heq
                  rw [hlat] at hla'
                  rw [hlon] at hlo'
                  injection hla' with hla''
                  injection hlo' with hlo''
                  subst hla''
                  subst hlo''
                  subst hdeq
                  exact absurd hdle hdist
                · exact ⟨hmem, hC⟩

/-! ## C5 -/

/-- C5: the fire matcher keeps a detection for a given farm and window iff
its acquisition timestamp is present and lies in the closed interval
`[window_start, window_end]` (inclusive at both ends), its latitude and
longitude parse, and its great-circle distance to the farm is at most
`radius_km`. -/
theorem C5_matcher_keeps_iff (haversine : ℚ → ℚ → ℚ → ℚ → ℚ)
    (rows : List FireRow) (farm : FarmAsset) (window_start window_end : ℤ)
    (fire_radius_km : ℚ) (row : FireRow) :
    (∃ d, (row, d) ∈ match_fires_for_window haversine rows farm window_start
      window_end fire_radius_km) ↔
    (row ∈ rows ∧
     (∃ t, to_dt row.acquired_at_utc = some t ∧ window_start ≤ t ∧ t ≤ window_end) ∧
     (∃ lat lon, row.latitude = some lat ∧ row.longitude = some lon ∧
       haversine farm.latitude farm.longitude lat lon ≤ fire_radius_km)) := by
  constructor
  · rintro ⟨d, hd⟩
    rcases (match_fires_mem_iff haversine farm window_start window_end
      fire_radius_km rows row d).mp hd with ⟨hmem, hT, la, lo, hla, hlo, hdeq, hdle⟩
    rw [hdeq] at hdle
    exact ⟨hmem, hT, la, lo, hla, hlo, hdle⟩
  · rintro ⟨hmem, hT, la, lo, hla, hlo, hdle⟩
    exact ⟨haversine farm.latitude farm.longitude la lo,
      (match_fires_mem_iff haversine farm window_start window_end
        fire_radius_km rows row _).mpr ⟨hmem, hT, la, lo, hla, hlo, rfl, hdle⟩⟩

/-! ## C6 -/

theorem foldl_min_ge {r : ℚ} :
    ∀ (l : List ℚ) (acc : ℚ), r ≤ acc → (∀ x ∈ l, r ≤ x) → r ≤ l.foldl min acc := by
  intro l
  induction l with
  | nil => intro acc h _; exact h
  | cons x xs ih =>
    intro acc hacc hall
    simp only [List.foldl_cons]
    exact ih (min acc x) (le_min hacc (hall x (List.mem_cons_self x xs)))
      (fun y hy => hall y (List.mem_cons_of_mem x hy))

theorem min_default_ge {l : List ℚ} {r : ℚ} (h : ∀ x ∈ l, r ≤ x) :
    r ≤ min_default l r := by
  cases l with
  | nil => exact le_refl r
  | cons x xs =>
    simp only [min_default]
    exact foldl_min_ge xs x (h x (List.mem_cons_self x xs))
      (fun y hy => h y (List.mem_cons_of_mem x hy))

theorem rhe_zero : rhe 0 = 0 := by
  have := rhe_intCast 0
  simpa using this

theorem py_round_zero (p : ℕ) : py_round p 0 = 0 := by
  unfold py_round
  rw [zero_mul, rhe_zero]
  norm_num

/-- C6: a detection at great-circle distance exactly `radius_km` is matched
(the comparison is inclusive), and whenever every matched distance is at
least `radius_km` — in particular for a single fire at exactly `radius_km`,
or for no matched fires at all, where `min_distance` defaults to `radius_km`
— the stored `fire_proximity` is `0`. -/
theorem C6_inclusive_radius_zero_proximity (haversine : ℚ → ℚ → ℚ → ℚ → ℚ)
    (rows : List FireRow) (farm : FarmAsset) (window_start window_end t : ℤ)
    (fire_radius_km : ℚ) (row : FireRow) (lat lon : ℚ) (weather : WeatherRow)
    (event_hour : ℤ) (matched : List (FireRow × ℚ)) (crop_f : ℚ)
    (cdl_row : Option CdlRow) (hr : 0 < fire_radius_km) :
    (row ∈ rows →
     to_dt row.acquired_at_utc = some t →
     window_start ≤ t → t ≤ window_end →
     row.latitude = some lat → row.longitude = some lon →
     haversine farm.latitude farm.longitude lat lon = fire_radius_km →
     (row, fire_radius_km) ∈ match_fires_for_window haversine rows farm
       window_start window_end fire_radius_km) ∧
    ((∀ p ∈ matched, fire_radius_km ≤ p.2) →
     (compute_feature_row farm weather event_hour matched crop_f cdl_row
       fire_radius_km).fire_proximity = 0) := by
  constructor
  · intro hmem ht hge hle hla hlo hdeq
    exact (match_fires_mem_iff haversine farm window_start window_end
      fire_radius_km rows row fire_radius_km).mpr
      ⟨hmem, ⟨t, ht, hge, hle⟩, ⟨lat, lon, hla, hlo, hdeq.symm, le_refl _⟩⟩
  · intro hall
    simp only [compute_feature_row]
    have hmin : fire_radius_km ≤ min_default (matched.map (fun p => p.2)) fire_radius_km := by
      refine min_default_ge ?_
      intro x hx
      rcases List.mem_map.mp hx with ⟨p, hp, hpx⟩
      rw [← hpx]
      exact hall p hp
    have harg : 1 - min_default (matched.map (fun p => p.2)) fire_radius_km / fire_radius_km ≤ 0 := by
      have : (1 : ℚ) ≤ min_default (matched.map (fun p => p.2)) fire_radius_km / fire_radius_km := by
        rw [le_div_iff₀ hr, one_mul]
        exact hmin
      linarith
    rw [clip01_eq_zero harg, py_round_zero]

/-- A detection acquired at hour 0 whose raw distance to `sample_farm_a` is
reported as exactly 50 km by `dist_fifty`. -/
def sample_fire_far : FireRow :=
  { acquired_at_utc := .str "2024-01-01T00:00:00+00:00" (some 0),
    latitude := some 0, longitude := some (9/20),
    frp := none, confidence := none }

/-- A distance oracle reporting 50 km between any two points. -/
def dist_fifty : ℚ → ℚ → ℚ → ℚ → ℚ := fun _ _ _ _ => 50

/-- Witness for C6 at radius 50, one detection at distance exactly 50. -/
theorem C6_inclusive_radius_zero_proximity_witness :
    (0 : ℚ) < 50 ∧
    ((sample_fire_far, (50 : ℚ)) ∈ match_fires_for_window dist_fifty
      [sample_fire_far] sample_farm_a (-86400) 0 50) ∧
    (compute_feature_row sample_farm_a sample_weather_a 0
      [(sample_fire_far, 50)] 1.15 none 50).fire_proximity = 0 := by
  have h := C6_inclusive_radius_zero_proximity dist_fifty [sample_fire_far]
    sample_farm_a (-86400) 0 0 50 sample_fire_far 0 (9/20) sample_weather_a 0
    [(sample_fire_far, 50)] 1.15 none (by norm_num)
  refine ⟨by norm_num, ?_, h.2 ?_⟩
  · exact h.1 (List.mem_singleton.mpr rfl) rfl (by norm_num) (by norm_num)
      rfl rfl rfl
  · intro p hp
    rw [List.mem_singleton] at hp
    subst hp
    norm_num

/-! ## C4 -/

/-- A weather record with an explicitly present zero humidity and a hot
temperature. -/
def sample_weather_dry : WeatherRow :=
  { latitude := some 0, longitude := some 0,
    event_hour_utc := .str "2024-01-01T00:00:00+00:00" (some 0),
    wind_speed_10m := none, temperature_2m := some 50,
    relative_humidity_2m := some 0 }

/-- C4, evaluation of the code at the failing input: the scorer reads weather
fields through Python `_to_float(...) or default`, and `or` treats the float
`0.0` as falsy, so a present humidity of `0` is replaced by the "no heat
stress" default `100`: the emitted row echoes humidity `100` and scores
`heat_stress = 0`, where the claimed semantics (defaults only when the field
is absent or unparseable) would use humidity `0` and score
`heat_stress = clip01((50-30)/12) * clip01((60-0)/40) = 1`. -/
theorem C4_zero_humidity_gets_defaulted :
    py_or (some (0 : ℚ)) 100 = 100 ∧
    (compute_feature_row sample_farm_a sample_weather_dry 0 [] 1 none
      50).relative_humidity_2m = 100 ∧
    (compute_feature_row sample_farm_a sample_weather_dry 0 [] 1 none
      50).heat_stress = 0 ∧
    clip01 ((50 - 30) / 12) * clip01 ((60 - 0) / 40) = 1 := by
  refine ⟨by norm_num [py_or], ?_, ?_, by norm_num [clip01]⟩ <;>
    norm_num [compute_feature_row, py_or, min_default, clip01, py_round, rhe,
      sample_weather_dry]

/-! ## C10 -/

theorem fire_points_go_length :
    ∀ (rows : List FireRow) (idx : ℕ),
      (fire_points_go idx rows).length =
      (rows.filter (fun r => r.latitude.isSome && r.longitude.isSome)).length := by
  intro rows
  induction rows with
  | nil => intro idx; rfl
  | cons hd tl ih =>
    intro idx
    rcases h1 : hd.latitude with _ | la
    · simp [fire_points_go, h1, ih (idx + 1)]
    · rcases h2 : hd.longitude with _ | lo
      · simp [fire_points_go, h1, h2, ih (idx + 1)]
      · simp [fire_points_go, h1, h2, ih (idx + 1)]

theorem fire_points_go_mem (row : FireRow) (lat lon : ℚ) :
    ∀ (rows : List FireRow) (idx : ℕ), row ∈ rows →
      row.latitude = some lat → row.longitude = some lon →
      ∃ p ∈ fire_points_go idx rows,
        p.lat = lat ∧ p.lon = lon ∧ p.time_utc = row.acquired_at_utc ∧
        p.frp = py_or row.frp 0 ∧ p.confidence = py_or row.confidence 0 ∧
        p.risk_hint = risk_hint (py_or row.frp 0) (py_or row.confidence 0) := by
  intro rows
  induction rows with
  | nil => intro idx h; cases h
  | cons hd tl ih =>
    intro idx hmem hla hlo
    rcases List.mem_cons.mp hmem with heq | hmem'
    · subst heq
      simp only [fire_points_go, hla, hlo]
      exact ⟨_, List.mem_cons_self _ _, rfl, rfl, rfl, rfl, rfl, rfl⟩
    · rcases h1 : hd.latitude with _ | la0
      · simp only [fire_points_go, h1]
        exact ih (idx + 1) hmem' hla hlo
      · rcases h2 : hd.longitude with _ | lo0
        · simp only [fire_points_go, h1, h2]
          exact ih (idx + 1) hmem' hla hlo
        · simp only [fire_points_go, h1, h2]
          rcases ih (idx + 1) hmem' hla hlo with ⟨p, hp, hrest⟩
          exact ⟨p, List.mem_cons_of_mem _ hp, hrest⟩

/-- C10: `map_fire_points` has one entry per detection whose latitude and
longitude parse — independently of the acquisition timestamp —, the entry's
`time_utc` is the raw input value, and missing/unparseable `frp` and
`confidence` default to `0` both in the entry and in its `risk_hint`. -/
theorem C10_fire_points_per_valid_coordinates (rows : List FireRow) :
    (build_map_fire_points rows).length =
      (rows.filter (fun r => r.latitude.isSome && r.longitude.isSome)).length ∧
    ∀ row ∈ rows, ∀ lat lon, row.latitude = some lat → row.longitude = some lon →
      ∃ p ∈ build_map_fire_points rows,
        p.lat = lat ∧ p.lon = lon ∧ p.time_utc = row.acquired_at_utc ∧
        p.frp = py_or row.frp 0 ∧ p.confidence = py_or row.confidence 0 ∧
        p.risk_hint = risk_hint (py_or row.frp 0) (py_or row.confidence 0) := by
  constructor
  · exact fire_points_go_length rows 1
  · intro row hmem lat lon hla hlo
    exact fire_points_go_mem row lat lon rows 1 hmem hla hlo

/-- A detection with parseable coordinates, a null timestamp and absent
`frp`/`confidence`. -/
def sample_fire_nulltime : FireRow :=
  { acquired_at_utc := .null, latitude := some 1, longitude := some 2,
    frp := none, confidence := none }

/-- Witness for C10 on a single detection with null timestamp. -/
theorem C10_fire_points_per_valid_coordinates_witness :
    (build_map_fire_points [sample_fire_nulltime]).length =
      ([sample_fire_nulltime].filter
        (fun r => r.latitude.isSome && r.longitude.isSome)).length ∧
    ∃ p ∈ build_map_fire_points [sample_fire_nulltime],
      p.lat = 1 ∧ p.lon = 2 ∧
      p.time_utc = sample_fire_nulltime.acquired_at_utc ∧
      p.frp = py_or sample_fire_nulltime.frp 0 ∧
      p.confidence = py_or sample_fire_nulltime.confidence 0 ∧
      p.risk_hint = risk_hint (py_or sample_fire_nulltime.frp 0)
        (py_or sample_fire_nulltime.confidence 0) :=
  ⟨(C10_fire_points_per_valid_coordinates [sample_fire_nulltime]).1,
    (C10_fire_points_per_valid_coordinates [sample_fire_nulltime]).2
      sample_fire_nulltime (List.mem_singleton.mpr rfl) 1 2 rfl rfl⟩

/-! ## C3 -/

theorem py_round4_067 : py_round 4 (0.67 : ℚ) = 0.67 := by
  have h : (0.67 : ℚ) = ((6700 : ℤ) : ℚ) / 10 ^ 4 := by norm_num
  rw [h, py_round_scaled_int]

theorem py_round4_034 : py_round 4 (0.34 : ℚ) = 0.34 := by
  have h : (0.34 : ℚ) = ((3400 : ℤ) : ℚ) / 10 ^ 4 := by norm_num
  rw [h, py_round_scaled_int]

/-- The stored (4-dp rounded) score respects the level thresholds one-sidedly. -/
theorem risk_level_score_bounds (u : ℚ) :
    (risk_level u = "high" ∨ risk_level u = "medium" ∨ risk_level u = "low") ∧
    (risk_level u = "high" → (0.67 : ℚ) ≤ py_round 4 u) ∧
    (risk_level u = "medium" → (0.34 : ℚ) ≤ py_round 4 u ∧ py_round 4 u ≤ 0.67) ∧
    (risk_level u = "low" → py_round 4 u ≤ 0.34) := by
  unfold risk_level
  split_ifs with h1 h2
  · refine ⟨Or.inl rfl, fun _ => ?_, fun hc => absurd hc (by decide), fun hc => absurd hc (by decide)⟩
    have := py_round_mono 4 h1
    rw [py_round4_067] at this
    exact this
  · refine ⟨Or.inr (Or.inl rfl), fun hc => absurd hc (by decide), fun _ => ⟨?_, ?_⟩,
      fun hc => absurd hc (by decide)⟩
    · have := py_round_mono 4 h2
      rw [py_round4_034] at this
      exact this
    · have hle : u ≤ (0.67 : ℚ) := le_of_not_le h1
      have := py_round_mono 4 hle
      rw [py_round4_067] at this
      exact this
  · refine ⟨Or.inr (Or.inr rfl), fun hc => absurd hc (by decide),
      fun hc => absurd hc (by decide), fun _ => ?_⟩
    have hle : u ≤ (0.34 : ℚ) := le_of_not_le h2
    have := py_round_mono 4 hle
    rw [py_round4_034] at this
    exact this

/-- Every emitted fire point's `risk_hint` is the hint formula recomputed on
its stored (defaulted) `frp` and `confidence`. -/
theorem fire_points_go_hint :
    ∀ (rows : List FireRow) (idx : ℕ), ∀ p ∈ fire_points_go idx rows,
      p.risk_hint = risk_hint p.frp p.confidence := by
  intro rows
  induction rows with
  | nil => intro idx p hp; cases hp
  | cons hd tl ih =>
    intro idx p hp
    rcases h1 : hd.latitude with _ | la
    · rw [fire_points_go, h1] at hp
      exact ih (idx + 1) p hp
    · rcases h2 : hd.longitude with _ | lo
      · rw [fire_points_go, h1] at hp
        simp only [h2] at hp
        exact ih (idx + 1) p hp
      · rw [fire_points_go, h1] at hp
        simp only [h2] at hp
        rcases List.mem_cons.mp hp with heq | hmem
        · subst heq; rfl
        · exact ih (idx + 1) p hmem

/-- C3 (amended): the stored `risk_level` comes from the unrounded score, so
against the stored 4-dp `risk_score` it is consistent only one-sidedly —
"high" forces stored `≥ 0.67`, "medium" forces stored in `[0.34, 0.67]`,
"low" forces stored `≤ 0.34` (the strict-inequality reading of the claim can
fail when rounding crosses a threshold); and every fire point's `risk_hint`
is the step function `0.6·clip01(frp/20) + 0.4·clip01(confidence)` of its
stored values. -/
theorem C3_amended_level_consistency (haversine : ℚ → ℚ → ℚ → ℚ → ℚ)
    (farms : List FarmAsset) (firms_rows : List FireRow)
    (weather_rows : List WeatherRow) (cdl_rows : List CdlRow)
    (fire_radius_km : ℚ) (fire_window_hours now_utc : ℤ) :
    (∀ row ∈ (build_plot_tables haversine farms firms_rows weather_rows
        cdl_rows fire_radius_km fire_window_hours now_utc).chart_farm_timeseries,
      (row.risk_level = "high" ∨ row.risk_level = "medium" ∨ row.risk_level = "low") ∧
      (row.risk_level = "high" → (0.67 : ℚ) ≤ row.risk_score) ∧
      (row.risk_level = "medium" → (0.34 : ℚ) ≤ row.risk_score ∧ row.risk_score ≤ 0.67) ∧
      (row.risk_level = "low" → row.risk_score ≤ 0.34)) ∧
    (∀ p ∈ (build_plot_tables haversine farms firms_rows weather_rows
        cdl_rows fire_radius_km fire_window_hours now_utc).map_fire_points,
      p.risk_hint = risk_hint p.frp p.confidence) := by
  constructor
  · intro row hrow
    refine chart_rows_prop
      (P := fun r =>
        (r.risk_level = "high" ∨ r.risk_level = "medium" ∨ r.risk_level = "low") ∧
        (r.risk_level = "high" → (0.67 : ℚ) ≤ r.risk_score) ∧
        (r.risk_level = "medium" → (0.34 : ℚ) ≤ r.risk_score ∧ r.risk_score ≤ 0.67) ∧
        (r.risk_level = "low" → r.risk_score ≤ 0.34))
      (fun farm weather event_hour matched crop_f cdl_row => ?_) row hrow
    simp only [compute_feature_row]
    exact risk_level_score_bounds _
  · intro p hp
    have hmp : (build_plot_tables haversine farms firms_rows weather_rows
        cdl_rows fire_radius_km fire_window_hours now_utc).map_fire_points =
        build_map_fire_points firms_rows := by
      simp only [build_plot_tables]
    rw [hmp] at hp
    exact fire_points_go_hint firms_rows 1 p hp

/-- A detection at the farm's own location with `frp = 186.06` (acquired at
hour 0). -/
def sample_fire_hot : FireRow :=
  { acquired_at_utc := .str "2024-01-01T00:00:00+00:00" (some 0),
    latitude := some 0, longitude := some 0,
    frp := some 186.06, confidence := some 1 }

/-- Counterexample to C3 as stated: with a vineyard farm, a co-located fire
of `frp = 186.06` and default weather, the unrounded risk score is
`1.15 × (0.35 + 0.25 × 0.9303) = 0.66996125`, so the stored 4-dp score is
`0.67` while the stored level — computed from the unrounded value — is
`"medium"`, not `"high"`: the stored pair violates "high iff
risk_score ≥ 0.67". -/
theorem crop_factor_grape : crop_factor "grape" = 1.15 := by
  have hsl : strip_lower "grape" = "grape" := by decide
  norm_num [crop_factor, hsl]

theorem C3_stored_level_mismatch :
    ((build_plot_tables dist_zero [sample_farm_a] [sample_fire_hot]
        [sample_weather_a] [] 50 24 0).chart_farm_timeseries.map
      (fun r => (r.risk_score, r.risk_level))) = [((0.67 : ℚ), "medium")] ∧
    ((0.67 : ℚ) ≤ 0.67) ∧ "medium" ≠ "high" := by
  refine ⟨?_, le_refl _, by decide⟩
  norm_num [build_plot_tables, farms_by_id_of, group_weather_by_coord,
    group_step, group_add, sort_series, nearest_weather_series, nearest_step, farm_step, hour_step,
    to_dt, raw_key, dict_set, dict_get, cdl_lookup_get, crop_factor_grape,
    match_fires_for_window,
    compute_feature_row, min_default, py_or, clip01, top_driver, risk_level,
    py_round, rhe, update_latest, to_farm_status, sort_chart, sort_status,
    build_map_fire_points, fire_points_go, build_map_farm_boundaries_geojson,
    boundary_feature, infer_grid_step, insert_sorted_unique, pair_diffs,
    risk_hint, is_polygon_geometry, grid_cell_polygon, coord_pair,
    sample_farm_a, sample_weather_a, sample_fire_hot, dist_zero]

/-- The fire-point entry emitted for `sample_fire_nulltime`. -/
def sample_point_b : FirePoint :=
  { id := "fire_1", lat := 1, lon := 2, time_utc := .null, frp := 0,
    confidence := 0, risk_hint := "low" }

/-- Concrete evaluation of `map_fire_points` on the null-timestamp sample. -/
theorem sample_run_b_fire_points_eq :
    (build_plot_tables dist_zero [sample_farm_a] [sample_fire_nulltime]
      [sample_weather_a] [] 50 24 0).map_fire_points = [sample_point_b] := by
  have hid : "fire_" ++ toString (1 : ℕ) = "fire_1" := by decide
  norm_num [build_plot_tables, build_map_fire_points, fire_points_go, py_or,
    risk_hint, clip01, hid, sample_fire_nulltime, sample_point_b]

/-- Witness for the amended C3 on the two sample runs. -/
theorem C3_amended_level_consistency_witness :
    ((sample_row_a.risk_level = "high" ∨ sample_row_a.risk_level = "medium" ∨
        sample_row_a.risk_level = "low") ∧
     (sample_row_a.risk_level = "high" → (0.67 : ℚ) ≤ sample_row_a.risk_score) ∧
     (sample_row_a.risk_level = "medium" →
       (0.34 : ℚ) ≤ sample_row_a.risk_score ∧ sample_row_a.risk_score ≤ 0.67) ∧
     (sample_row_a.risk_level = "low" → sample_row_a.risk_score ≤ 0.34)) ∧
    sample_point_b.risk_hint = risk_hint sample_point_b.frp sample_point_b.confidence := by
  constructor
  · exact (C3_amended_level_consistency dist_zero [sample_farm_a] []
      [sample_weather_a] [] 50 24 0).1 sample_row_a
      (by rw [sample_run_a_chart_eq]; exact List.mem_singleton.mpr rfl)
  · exact (C3_amended_level_consistency dist_zero [sample_farm_a]
      [sample_fire_nulltime] [sample_weather_a] [] 50 24 0).2 sample_point_b
      (by rw [sample_run_b_fire_points_eq]; exact List.mem_singleton.mpr rfl)

/-! ## C8 -/

/-- Counterexample to C8 as stated: with `fire_window_hours = 0` the
assembler still matches a detection acquired exactly at the evaluation hour
(the emitted row has `fire_count_24h = 1`, not `0`), and with
`fire_radius_km = 0` the matcher still keeps a detection whose distance to
the farm is exactly `0`. -/
theorem C8_degenerate_params_still_match :
    ((build_plot_tables dist_zero [sample_farm_a] [sample_fire_hot]
        [sample_weather_a] [] 50 0 0).chart_farm_timeseries.map
      (fun r => r.fire_count_24h)) = [1] ∧
    (sample_fire_hot, (0 : ℚ)) ∈ match_fires_for_window dist_zero
      [sample_fire_hot] sample_farm_a (-86400) 0 0 := by
  constructor
  · norm_num [build_plot_tables, farms_by_id_of, group_weather_by_coord,
      group_step, group_add, sort_series, nearest_weather_series, nearest_step, farm_step, hour_step,
      to_dt, raw_key, dict_set, dict_get, cdl_lookup_get, crop_factor_grape,
      match_fires_for_window,
      compute_feature_row, min_default, py_or, clip01, top_driver, risk_level,
      py_round, rhe, update_latest, to_farm_status, sort_chart, sort_status,
      build_map_fire_points, fire_points_go, build_map_farm_boundaries_geojson,
      boundary_feature, infer_grid_step, insert_sorted_unique, pair_diffs,
      risk_hint, is_polygon_geometry, grid_cell_polygon, coord_pair,
      sample_farm_a, sample_weather_a, sample_fire_hot, dist_zero]
  · exact (match_fires_mem_iff dist_zero sample_farm_a (-86400) 0 0
      [sample_fire_hot] sample_fire_hot 0).mpr
      ⟨List.mem_singleton.mpr rfl, ⟨0, rfl, by norm_num, le_refl 0⟩,
        ⟨0, 0, rfl, rfl, rfl, le_refl 0⟩⟩

/-- C8 (amended): the degenerate parameters do not "match nothing".  With
`fire_window_hours = 0` the window collapses to the single instant
`event_hour`, and a detection acquired exactly then (within radius) is still
matched; with `fire_radius_km = 0`, a detection at distance at most `0` —
e.g. at the farm's exact coordinates, where the great-circle distance is
`0` — is still matched.  Only detections outside these degenerate sets are
excluded. -/
theorem C8_amended_degenerate_matching (haversine : ℚ → ℚ → ℚ → ℚ → ℚ)
    (rows : List FireRow) (farm : FarmAsset) (window_end : ℤ)
    (start2 end2 : ℤ) (fire_radius_km : ℚ) (row : FireRow) :
    ((∃ d, (row, d) ∈ match_fires_for_window haversine rows farm window_end
        window_end fire_radius_km) ↔
      (row ∈ rows ∧ to_dt row.acquired_at_utc = some window_end ∧
       (∃ lat lon, row.latitude = some lat ∧ row.longitude = some lon ∧
         haversine farm.latitude farm.longitude lat lon ≤ fire_radius_km))) ∧
    ((∃ d, (row, d) ∈ match_fires_for_window haversine rows farm start2 end2 0) ↔
      (row ∈ rows ∧
       (∃ t, to_dt row.acquired_at_utc = some t ∧ start2 ≤ t ∧ t ≤ end2) ∧
       (∃ lat lon, row.latitude = some lat ∧ row.longitude = some lon ∧
         haversine farm.latitude farm.longitude lat lon ≤ 0))) := by
  constructor
  · constructor
    · rintro ⟨d, hd⟩
      rcases (match_fires_mem_iff haversine farm window_end window_end
        fire_radius_km rows row d).mp hd with
        ⟨hmem, ⟨t, ht, h1, h2⟩, la, lo, hla, hlo, hdeq, hdle⟩
      have heq : t = window_end := le_antisymm h2 h1
      subst heq
      rw [hdeq] at hdle
      exact ⟨hmem, ht, la, lo, hla, hlo, hdle⟩
    · rintro ⟨hmem, ht, la, lo, hla, hlo, hdle⟩
      exact ⟨_, (match_fires_mem_iff haversine farm window_end window_end
        fire_radius_km rows row _).mpr
        ⟨hmem, ⟨window_end, ht, le_refl _, le_refl _⟩,
          la, lo, hla, hlo, rfl, hdle⟩⟩
  · constructor
    · rintro ⟨d, hd⟩
      rcases (match_fires_mem_iff haversine farm start2 end2 0
        rows row d).mp hd with ⟨hmem, hT, la, lo, hla, hlo, hdeq, hdle⟩
      rw [hdeq] at hdle
      exact ⟨hmem, hT, la, lo, hla, hlo, hdle⟩
    · rintro ⟨hmem, hT, la, lo, hla, hlo, hdle⟩
      exact ⟨_, (match_fires_mem_iff haversine farm start2 end2 0
        rows row _).mpr ⟨hmem, hT, la, lo, hla, hlo, rfl, hdle⟩⟩

/-! ## C7 -/

/-- Generic fold invariant: each step either keeps the accumulator or
establishes `R` with the element it consumed. -/
theorem foldl_result_cases {α β : Type} (f : α → β → α) (R : α → β → Prop)
    (hf : ∀ a b, f a b = a ∨ R (f a b) b) :
    ∀ (l : List β) (init : α), l.foldl f init = init ∨ ∃ b ∈ l, R (l.foldl f init) b := by
  intro l
  induction l with
  | nil => intro init; exact Or.inl rfl
  | cons x xs ih =>
    intro init
    simp only [List.foldl_cons]
    rcases ih (f init x) with h | ⟨b, hb, hR⟩
    · rcases hf init x with h2 | h2
      · exact Or.inl (h.trans h2)
      · exact Or.inr ⟨x, List.mem_cons_self x xs, by rw [h]; exact h2⟩
    · exact Or.inr ⟨b, List.mem_cons_of_mem x hb, hR⟩

/-- Every weather row inside a `group_add` result comes from the accumulator
or is the appended row. -/
theorem group_add_mem :
    ∀ (acc : List ((ℚ × ℚ) × List WeatherRow)) (key : ℚ × ℚ) (row : WeatherRow)
      (kv : (ℚ × ℚ) × List WeatherRow), kv ∈ group_add acc key row →
      ∀ w ∈ kv.2, (∃ kv0 ∈ acc, w ∈ kv0.2) ∨ w = row := by
  intro acc
  induction acc with
  | nil =>
    intro key row kv hkv w hw
    simp only [group_add, List.mem_singleton] at hkv
    subst hkv
    simp only [List.mem_singleton] at hw
    exact Or.inr hw
  | cons hd tl ih =>
    intro key row kv hkv w hw
    simp only [group_add] at hkv
    by_cases hk : hd.1 = key
    · rw [if_pos hk] at hkv
      rcases List.mem_cons.mp hkv with heq | hmem
      · subst heq
        rcases List.mem_append.mp hw with h1 | h2
        · exact Or.inl ⟨hd, List.mem_cons_self hd tl, h1⟩
        · simp only [List.mem_singleton] at h2
          exact Or.inr h2
      · exact Or.inl ⟨kv, List.mem_cons_of_mem hd hmem, hw⟩
    · rw [if_neg hk] at hkv
      rcases List.mem_cons.mp hkv with heq | hmem
      · rw [heq] at hw
        exact Or.inl ⟨hd, List.mem_cons_self hd tl, hw⟩
      · rcases ih key row kv hmem w hw with ⟨kv0, h0, hw0⟩ | heq
        · exact Or.inl ⟨kv0, List.mem_cons_of_mem hd h0, hw0⟩
        · exact Or.inr heq

/-- Rows inside the grouping fold satisfy any property holding of the
accumulator's rows and of the folded rows. -/
theorem group_fold_mem {P : WeatherRow → Prop} :
    ∀ (rows : List WeatherRow) (acc : List ((ℚ × ℚ) × List WeatherRow)),
      (∀ kv ∈ acc, ∀ w ∈ kv.2, P w) → (∀ row ∈ rows, P row) →
      ∀ kv ∈ rows.foldl group_step acc, ∀ w ∈ kv.2, P w := by
  intro rows
  induction rows with
  | nil =>
    intro acc hacc _ kv hkv w hw
    exact hacc kv hkv w hw
  | cons r rs ih =>
    intro acc hacc hall kv hkv w hw
    simp only [List.foldl_cons] at hkv
    have hstep : ∀ kv' ∈ group_step acc r, ∀ w' ∈ kv'.2, P w' := by
      intro kv' hkv' w' hw'
      unfold group_step at hkv'
      rcases h1 : r.latitude with _ | la
      · rw [h1] at hkv'
        exact hacc kv' hkv' w' hw'
      · rcases h2 : r.longitude with _ | lo
        · rw [h1, h2] at hkv'
          exact hacc kv' hkv' w' hw'
        · rw [h1, h2] at hkv'
          rcases group_add_mem acc (la, lo) r kv' hkv' w' hw' with ⟨kv0, h0, hw0⟩ | heq
          · exact hacc kv0 h0 w' hw0
          · rw [heq]
            exact hall r (List.mem_cons_self r rs)
    exact ih (group_step acc r) hstep
      (fun row hrow => hall row (List.mem_cons_of_mem r hrow)) kv hkv w hw

/-- Every row of every grouped series is one of the input weather rows. -/
theorem group_weather_by_coord_mem (rows : List WeatherRow) :
    ∀ kv ∈ group_weather_by_coord rows, ∀ w ∈ kv.2, w ∈ rows := by
  intro kv hkv w hw
  unfold group_weather_by_coord at hkv
  rcases List.mem_map.mp hkv with ⟨kv0, hkv0, hmap⟩
  rw [← hmap] at hw
  simp only at hw
  unfold sort_series at hw
  rw [List.mem_mergeSort] at hw
  exact group_fold_mem rows [] (by intro kv' h; cases h) (fun r h => h) kv0 hkv0 w hw

/-- The nearest series is empty or one of the grouped series. -/
theorem nearest_weather_series_cases (haversine : ℚ → ℚ → ℚ → ℚ → ℚ)
    (farm : FarmAsset) (grouped : List ((ℚ × ℚ) × List WeatherRow)) :
    nearest_weather_series haversine farm grouped = [] ∨
    ∃ kv ∈ grouped, nearest_weather_series haversine farm grouped = kv.2 := by
  unfold nearest_weather_series
  have hf : ∀ (a : Option (ℚ × List WeatherRow)) (b : (ℚ × ℚ) × List WeatherRow),
      nearest_step haversine farm a b = a ∨
      (∃ d, nearest_step haversine farm a b = some (d, b.2)) := by
    intro a b
    rcases a with _ | b0
    · exact Or.inr ⟨_, rfl⟩
    · simp only [nearest_step]
      by_cases hlt : haversine farm.latitude farm.longitude b.1.1 b.1.2 < b0.1
      · rw [if_pos hlt]
        exact Or.inr ⟨_, rfl⟩
      · rw [if_neg hlt]
        exact Or.inl rfl
  rcases foldl_result_cases (nearest_step haversine farm)
    (fun a b => ∃ d, a = some (d, b.2)) hf grouped none with h | ⟨kv, hkv, d, hd⟩
  · rw [h]
    exact Or.inl rfl
  · rw [hd]
    exact Or.inr ⟨kv, hkv, rfl⟩

/-- The hour loop is insensitive to the evaluation instant as long as the
instant classifies each series hour identically. -/
theorem hour_foldl_congr (haversine : ℚ → ℚ → ℚ → ℚ → ℚ)
    (firms_rows : List FireRow) (fire_radius_km : ℚ) (fire_window_hours : ℤ)
    (farm : FarmAsset) (crop_f : ℚ) (cdl_row : Option CdlRow) (now1 now2 : ℤ) :
    ∀ (series : List WeatherRow),
      (∀ w ∈ series, ∀ t, to_dt w.event_hour_utc = some t → (t ≤ now1 ↔ t ≤ now2)) →
      ∀ st,
        series.foldl (hour_step haversine firms_rows fire_radius_km
          fire_window_hours now1 farm crop_f cdl_row) st =
        series.foldl (hour_step haversine firms_rows fire_radius_km
          fire_window_hours now2 farm crop_f cdl_row) st := by
  intro series
  induction series with
  | nil => intro _ st; rfl
  | cons w ws ih =>
    intro hser st
    simp only [List.foldl_cons]
    have hw : hour_step haversine firms_rows fire_radius_km fire_window_hours
        now1 farm crop_f cdl_row st w =
        hour_step haversine firms_rows fire_radius_km fire_window_hours
          now2 farm crop_f cdl_row st w := by
      unfold hour_step
      rcases hdt : to_dt w.event_hour_utc with _ | eh
      · rfl
      · have hiff := hser w (List.mem_cons_self w ws) eh hdt
        simp only
        congr 1
        exact if_congr hiff rfl rfl
    rw [hw]
    exact ih (fun x hx t ht => hser x (List.mem_cons_of_mem w hx) t ht) _

/-- C7 (amended): the assembler is a pure function of the four input tables,
the two scalar parameters AND the evaluation instant `now`; the instant
matters only through which parsed weather hours are `≤` it — two instants
classifying every weather hour identically yield identical outputs. -/
theorem C7_amended_deterministic_given_now (haversine : ℚ → ℚ → ℚ → ℚ → ℚ)
    (farms : List FarmAsset) (firms_rows : List FireRow)
    (weather_rows : List WeatherRow) (cdl_rows : List CdlRow)
    (fire_radius_km : ℚ) (fire_window_hours : ℤ) (now1 now2 : ℤ)
    (h : ∀ w ∈ weather_rows, ∀ t, to_dt w.event_hour_utc = some t →
      (t ≤ now1 ↔ t ≤ now2)) :
    build_plot_tables haversine farms firms_rows weather_rows cdl_rows
      fire_radius_km fire_window_hours now1 =
    build_plot_tables haversine farms firms_rows weather_rows cdl_rows
      fire_radius_km fire_window_hours now2 := by
  simp only [build_plot_tables]
  have hfold : ∀ st,
      farms.foldl (farm_step haversine firms_rows fire_radius_km
        fire_window_hours now1 cdl_rows (group_weather_by_coord weather_rows)) st =
      farms.foldl (farm_step haversine firms_rows fire_radius_km
        fire_window_hours now2 cdl_rows (group_weather_by_coord weather_rows)) st := by
    induction farms with
    | nil => intro st; rfl
    | cons farm fs ih =>
      intro st
      simp only [List.foldl_cons]
      have hfs : farm_step haversine firms_rows fire_radius_km fire_window_hours
          now1 cdl_rows (group_weather_by_coord weather_rows) st farm =
          farm_step haversine firms_rows fire_radius_km fire_window_hours
            now2 cdl_rows (group_weather_by_coord weather_rows) st farm := by
        unfold farm_step
        have hser : ∀ w ∈ nearest_weather_series haversine farm
            (group_weather_by_coord weather_rows), ∀ t,
            to_dt w.event_hour_utc = some t → (t ≤ now1 ↔ t ≤ now2) := by
          intro w hw t ht
          rcases nearest_weather_series_cases haversine farm
            (group_weather_by_coord weather_rows) with hnil | ⟨kv, hkv, heq⟩
          · rw [hnil] at hw
            cases hw
          · rw [heq] at hw
            exact h w (group_weather_by_coord_mem weather_rows kv hkv w hw) t ht
        by_cases hempty : (nearest_weather_series haversine farm
            (group_weather_by_coord weather_rows)).isEmpty
        · rw [if_pos hempty, if_pos hempty]
        · rw [if_neg hempty, if_neg hempty]
          exact hour_foldl_congr haversine firms_rows fire_radius_km
            fire_window_hours farm (crop_factor farm.crop_type)
            (cdl_lookup_get cdl_rows farm.farm_id) now1 now2 _ hser st
      rw [hfs]
      exact ih _
  rw [hfold]

/-- A concrete distance stand-in (squared euclidean on coordinates): zero
exactly on coincident coordinate pairs, positive otherwise, as the real
great-circle distance is at the scales used in these runs. -/
def dist_sq : ℚ → ℚ → ℚ → ℚ → ℚ :=
  fun lat1 lon1 lat2 lon2 => (lat1 - lat2) ^ 2 + (lon1 - lon2) ^ 2

/-- A second vineyard farm at (10, 10). -/
def sample_farm_b : FarmAsset :=
  { farm_id := "farm_b", farm_name := "Farm B", latitude := 10, longitude := 10,
    crop_type := "grape", boundary_geometry := none }

/-- A weather record at (10, 10) for hour 7200 (a forecast hour relative to
`now = 0`). -/
def sample_weather_c : WeatherRow :=
  { latitude := some 10, longitude := some 10,
    event_hour_utc := .str "2024-01-01T02:00:00+00:00" (some 7200),
    wind_speed_10m := none, temperature_2m := none,
    relative_humidity_2m := none }

/-- Counterexample to C7 as stated: the assembler also depends on the
evaluation instant read from the wall clock — on identical input tables and
parameters, running at `now = 0` yields one current-status row while running
at `now = 7200` yields two, so the outputs differ. -/
theorem C7_output_depends_on_clock :
    (build_plot_tables dist_sq [sample_farm_a, sample_farm_b] []
      [sample_weather_a, sample_weather_c] [] 50 24 0).map_farm_status.length = 1 ∧
    (build_plot_tables dist_sq [sample_farm_a, sample_farm_b] []
      [sample_weather_a, sample_weather_c] [] 50 24 7200).map_farm_status.length = 2 ∧
    build_plot_tables dist_sq [sample_farm_a, sample_farm_b] []
      [sample_weather_a, sample_weather_c] [] 50 24 0 ≠
    build_plot_tables dist_sq [sample_farm_a, sample_farm_b] []
      [sample_weather_a, sample_weather_c] [] 50 24 7200 := by
  have h1 : (build_plot_tables dist_sq [sample_farm_a, sample_farm_b] []
      [sample_weather_a, sample_weather_c] [] 50 24 0).map_farm_status.length = 1 := by
    norm_num [build_plot_tables, farms_by_id_of, group_weather_by_coord,
      group_step, group_add, sort_series, nearest_weather_series, nearest_step,
      farm_step, hour_step, to_dt, raw_key, dict_set, dict_get, cdl_lookup_get,
      crop_factor_grape, match_fires_for_window, compute_feature_row,
      min_default, py_or, clip01, top_driver, risk_level, py_round, rhe,
      update_latest, to_farm_status, sort_chart, sort_status,
      List.length_mergeSort, Prod.mk.injEq, Prod.ext_iff, Prod.fst_zero,
      Prod.snd_zero, List.mergeSort_nil, List.mergeSort_singleton,
      sample_farm_a, sample_farm_b, sample_weather_a, sample_weather_c, dist_sq]
  have hne : ¬ (("farm_a" : String) = "farm_b") := by decide
  have hne2 : ¬ (("farm_b" : String) = "farm_a") := by decide
  have h2 : (build_plot_tables dist_sq [sample_farm_a, sample_farm_b] []
      [sample_weather_a, sample_weather_c] [] 50 24 7200).map_farm_status.length = 2 := by
    norm_num [hne, hne2, build_plot_tables, farms_by_id_of, group_weather_by_coord,
      group_step, group_add, sort_series, nearest_weather_series, nearest_step,
      farm_step, hour_step, to_dt, raw_key, dict_set, dict_get, cdl_lookup_get,
      crop_factor_grape, match_fires_for_window, compute_feature_row,
      min_default, py_or, clip01, top_driver, risk_level, py_round, rhe,
      update_latest, to_farm_status, sort_chart, sort_status,
      List.length_mergeSort, Prod.mk.injEq, Prod.ext_iff, Prod.fst_zero,
      Prod.snd_zero, List.mergeSort_nil, List.mergeSort_singleton,
      sample_farm_a, sample_farm_b, sample_weather_a, sample_weather_c, dist_sq]
  refine ⟨h1, h2, fun hEq => ?_⟩
  rw [hEq] at h1
  rw [h1] at h2
  exact absurd h2 (by norm_num)

/-- Witness for the amended C7: the instants `0` and `100` classify the only
weather hour (0) identically, and the runs coincide. -/
theorem C7_amended_deterministic_given_now_witness :
    build_plot_tables dist_zero [sample_farm_a] [] [sample_weather_a] []
      50 24 0 =
    build_plot_tables dist_zero [sample_farm_a] [] [sample_weather_a] []
      50 24 100 := by
  refine C7_amended_deterministic_given_now dist_zero [sample_farm_a] []
    [sample_weather_a] [] 50 24 0 100 ?_
  intro w hw t ht
  rw [List.mem_singleton] at hw
  subst hw
  have : t = 0 := by
    simp only [sample_weather_a, to_dt] at ht
    injection ht with h
    omega
  subst this
  omega

/-! ## C9 -/

/-- A syntactically valid registry Polygon (type tag and non-empty
coordinate list). -/
def sample_polygon : Geometry :=
  { type_tag := some "Polygon"
    coordinates := some (.arr [.arr [coord_pair 0 0, coord_pair 1 0,
      coord_pair 1 1, coord_pair 0 0]]) }

/-- A farm registered with `sample_polygon`. -/
def sample_farm_poly : FarmAsset :=
  { farm_id := "farm_p", farm_name := "Farm P", latitude := 0, longitude := 0,
    crop_type := "grape", boundary_geometry := some sample_polygon }

/-- A current-status row for the registered farm. -/
def sample_status_p : FarmStatus :=
  { farm_id := "farm_p", farm_name := "Farm P", crop_type := "grape",
    lat := 0, lon := 0, hour_utc := 0, risk_score := 0, risk_level := "low",
    top_driver := "fire_proximity", cdl_class_code := none }

/-- A current-status row for a farm absent from the registry dict. -/
def sample_status_q : FarmStatus :=
  { farm_id := "farm_q", farm_name := "Farm Q", crop_type := "grape",
    lat := 3, lon := 4, hour_utc := 0, risk_score := 0, risk_level := "low",
    top_driver := "fire_proximity", cdl_class_code := none }

/-- Counterexample to C9 as stated: the resolver's provenance tags are the
strings `"farm_csv_geojson"` and `"inferred_grid_cell"`, not the claimed
`"registry-supplied"` and `"inferred-grid-cell"`. -/
theorem C9_tag_strings_differ :
    ((build_map_farm_boundaries_geojson [sample_status_p, sample_status_q]
        (dict_set [] "farm_p" sample_farm_poly)).features.map
      (fun b => b.boundary_source)) = ["farm_csv_geojson", "inferred_grid_cell"] ∧
    ("farm_csv_geojson" : String) ≠ "registry-supplied" ∧
    ("inferred_grid_cell" : String) ≠ "inferred-grid-cell" := by
  have hne : ¬ (("farm_p" : String) = "farm_q") := by decide
  refine ⟨?_, by decide, by decide⟩
  norm_num [hne, build_map_farm_boundaries_geojson, boundary_feature,
    dict_get, dict_set, is_polygon_geometry, infer_grid_step,
    insert_sorted_unique, pair_diffs, py_round, rhe, min_default,
    grid_cell_polygon, coord_pair, sample_status_p, sample_status_q,
    sample_farm_poly, sample_polygon]

/-- C9 (amended): every status row yields exactly one boundary feature;
when the registry lookup yields a syntactically valid Polygon/MultiPolygon
the feature carries that exact geometry under the tag `"farm_csv_geojson"`
(the source's name for registry-supplied), and otherwise the feature carries
the inferred grid-cell rectangle under the tag `"inferred_grid_cell"`. -/
theorem C9_amended_boundary_resolution (status : List FarmStatus)
    (farms_by_id : List (String × FarmAsset)) :
    ((build_map_farm_boundaries_geojson status farms_by_id).features.length =
      status.length) ∧
    ∀ s ∈ status,
      ∃ b ∈ (build_map_farm_boundaries_geojson status farms_by_id).features,
        b.farm_id = s.farm_id ∧ b.hour_utc = s.hour_utc ∧
        ((∃ g, (dict_get farms_by_id s.farm_id).bind
              (fun fa => fa.boundary_geometry) = some g ∧
            is_polygon_geometry (some g) = true ∧
            b.boundary_source = "farm_csv_geojson" ∧ b.geometry = g) ∨
         (is_polygon_geometry ((dict_get farms_by_id s.farm_id).bind
              (fun fa => fa.boundary_geometry)) = false ∧
          b.boundary_source = "inferred_grid_cell" ∧
          b.geometry = grid_cell_polygon s.lat s.lon
            (infer_grid_step (status.map (fun r => r.lat)) * 0.42)
            (infer_grid_step (status.map (fun r => r.lon)) * 0.42))) := by
  constructor
  · simp only [build_map_farm_boundaries_geojson]
    exact List.length_map status _
  · intro s hs
    refine ⟨boundary_feature farms_by_id
      (infer_grid_step (status.map (fun r => r.lat)) * 0.42)
      (infer_grid_step (status.map (fun r => r.lon)) * 0.42) s, ?_, ?_⟩
    · simp only [build_map_farm_boundaries_geojson]
      exact List.mem_map.mpr ⟨s, hs, rfl⟩
    · rcases hg : (dict_get farms_by_id s.farm_id).bind
        (fun fa => fa.boundary_geometry) with _ | g
      · simp [boundary_feature, hg, is_polygon_geometry]
      · by_cases hpoly : is_polygon_geometry (some g) = true
        · simp [boundary_feature, hg, hpoly]
        · have hpoly2 : is_polygon_geometry (some g) = false := by
            simpa using hpoly
          simp [boundary_feature, hg, hpoly2]

/-- Witness for the amended C9: a single status row whose farm has a valid
registry polygon. -/
theorem C9_amended_boundary_resolution_witness :
    ((build_map_farm_boundaries_geojson [sample_status_p]
        (dict_set [] "farm_p" sample_farm_poly)).features.length =
      [sample_status_p].length) ∧
    ∃ b ∈ (build_map_farm_boundaries_geojson [sample_status_p]
        (dict_set [] "farm_p" sample_farm_poly)).features,
      b.farm_id = sample_status_p.farm_id ∧
      b.hour_utc = sample_status_p.hour_utc ∧
      ((∃ g, (dict_get (dict_set [] "farm_p" sample_farm_poly)
            sample_status_p.farm_id).bind
            (fun fa => fa.boundary_geometry) = some g ∧
          is_polygon_geometry (some g) = true ∧
          b.boundary_source = "farm_csv_geojson" ∧ b.geometry = g) ∨
       (is_polygon_geometry ((dict_get (dict_set [] "farm_p" sample_farm_poly)
            sample_status_p.farm_id).bind
            (fun fa => fa.boundary_geometry)) = false ∧
        b.boundary_source = "inferred_grid_cell" ∧
        b.geometry = grid_cell_polygon sample_status_p.lat sample_status_p.lon
          (infer_grid_step ([sample_status_p].map (fun r => r.lat)) * 0.42)
          (infer_grid_step ([sample_status_p].map (fun r => r.lon)) * 0.42))) :=
  ⟨(C9_amended_boundary_resolution [sample_status_p]
      (dict_set [] "farm_p" sample_farm_poly)).1,
   (C9_amended_boundary_resolution [sample_status_p]
      (dict_set [] "farm_p" sample_farm_poly)).2 sample_status_p
      (List.mem_singleton.mpr rfl)⟩

/-! ## C2 -/

theorem dict_get_eq_none {α : Type} (m : List (String × α)) (k : String) :
    dict_get m k = none ↔ ∀ kv ∈ m, kv.1 ≠ k := by
  unfold dict_get
  rw [Option.map_eq_none']
  rw [List.find?_eq_none]
  constructor
  · intro h kv hkv
    have := h kv hkv
    simpa using this
  · intro h kv hkv
    simpa using h kv hkv

theorem dict_get_mem {α : Type} {m : List (String × α)} {k : String} {v : α}
    (h : dict_get m k = some v) : (k, v) ∈ m := by
  unfold dict_get at h
  rcases Option.map_eq_some'.mp h with ⟨kv, hfind, hv⟩
  have hmem := List.mem_of_find?_eq_some hfind
  have hp := List.find?_some hfind
  simp only [beq_iff_eq] at hp
  have : kv = (k, v) := by
    rcases kv with ⟨k', v'⟩
    simp only at hp hv
    rw [hp, hv]
  rw [← this]
  exact hmem

theorem mem_keys_dict_set {α : Type} :
    ∀ (m : List (String × α)) (k : String) (v : α) (x : String),
      x ∈ (dict_set m k v).map Prod.fst ↔ x ∈ m.map Prod.fst ∨ x = k := by
  intro m
  induction m with
  | nil =>
    intro k v x
    simp [dict_set]
  | cons hd tl ih =>
    intro k v x
    unfold dict_set
    by_cases hk : hd.1 = k
    · rw [if_pos hk]
      simp only [List.map_cons, List.mem_cons]
      rw [← hk]
      tauto
    · rw [if_neg hk]
      simp only [List.map_cons, List.mem_cons]
      rw [ih k v x]
      tauto

theorem dict_set_nodup {α : Type} :
    ∀ {m : List (String × α)} (k : String) (v : α),
      (m.map Prod.fst).Nodup → ((dict_set m k v).map Prod.fst).Nodup := by
  intro m
  induction m with
  | nil =>
    intro k v _
    simp [dict_set]
  | cons hd tl ih =>
    intro k v hnd
    simp only [List.map_cons, List.nodup_cons] at hnd
    unfold dict_set
    by_cases hk : hd.1 = k
    · rw [if_pos hk]
      simp only [List.map_cons, List.nodup_cons]
      exact ⟨by rw [← hk]; exact hnd.1, hnd.2⟩
    · rw [if_neg hk]
      simp only [List.map_cons, List.nodup_cons]
      refine ⟨?_, ih k v hnd.2⟩
      rw [mem_keys_dict_set tl k v hd.1]
      rintro (h | h)
      · exact hnd.1 h
      · exact hk h

theorem mem_dict_set_iff {α : Type} :
    ∀ {m : List (String × α)}, (m.map Prod.fst).Nodup →
      ∀ (k : String) (v : α) (kv : String × α),
        (kv ∈ dict_set m k v ↔ (kv = (k, v) ∨ (kv ∈ m ∧ kv.1 ≠ k))) := by
  intro m
  induction m with
  | nil =>
    intro _ k v kv
    simp [dict_set]
  | cons hd tl ih =>
    intro hnd k v kv
    simp only [List.map_cons, List.nodup_cons] at hnd
    unfold dict_set
    by_cases hk : hd.1 = k
    · rw [if_pos hk]
      simp only [List.mem_cons]
      constructor
      · rintro (h | h)
        · exact Or.inl h
        · refine Or.inr ⟨Or.inr h, ?_⟩
          intro hkv
          apply hnd.1
          rw [← hk] at hkv
          rw [← hkv]
          exact List.mem_map.mpr ⟨kv, h, rfl⟩
      · rintro (h | ⟨(h | h), hne⟩)
        · exact Or.inl h
        · exact absurd (h ▸ hk) hne
        · exact Or.inr h
    · rw [if_neg hk]
      simp only [List.mem_cons]
      rw [ih hnd.2 k v kv]
      constructor
      · rintro (h | (h | ⟨h1, h2⟩))
        · refine Or.inr ⟨Or.inl h, ?_⟩
          rw [h]
          exact fun hc => hk (by rw [← hc])
        · exact Or.inl h
        · exact Or.inr ⟨Or.inr h1, h2⟩
      · rintro (h | ⟨(h | h), hne⟩)
        · exact Or.inr (Or.inl h)
        · exact Or.inl h
        · exact Or.inr (Or.inr ⟨h, hne⟩)

theorem keys_nodup_unique {α : Type} :
    ∀ {m : List (String × α)}, (m.map Prod.fst).Nodup →
      ∀ {k : String} {v1 v2 : α}, (k, v1) ∈ m → (k, v2) ∈ m → v1 = v2 := by
  intro m
  induction m with
  | nil =>
    intro _ k v1 v2 h1
    cases h1
  | cons hd tl ih =>
    intro hnd k v1 v2 h1 h2
    simp only [List.map_cons, List.nodup_cons] at hnd
    rcases List.mem_cons.mp h1 with he1 | hm1
    · rcases List.mem_cons.mp h2 with he2 | hm2
      · rw [← he2] at he1
        exact congrArg Prod.snd he1
      · exfalso
        apply hnd.1
        rw [← he1]
        exact List.mem_map.mpr ⟨(k, v2), hm2, rfl⟩
    · rcases List.mem_cons.mp h2 with he2 | hm2
      · exfalso
        apply hnd.1
        rw [← he2]
        exact List.mem_map.mpr ⟨(k, v1), hm1, rfl⟩
      · exact ih hnd.2 hm1 hm2

/-- Invariant tying a latest-by-hour accumulator map to the chart rows
produced so far: unique keys; every entry is a produced row of its key's
farm satisfying `cond` and maximal by hour among such rows; and a key is
present exactly when such a row was produced. -/
def LatestInv (chart : List FeatureRow) (m : List (String × FeatureRow))
    (cond : FeatureRow → Prop) : Prop :=
  (m.map Prod.fst).Nodup ∧
  (∀ kv ∈ m, kv.2 ∈ chart ∧ kv.2.farm_id = kv.1 ∧ cond kv.2 ∧
    ∀ r ∈ chart, r.farm_id = kv.1 → cond r → r.hour_utc ≤ kv.2.hour_utc) ∧
  (∀ f, (∃ r ∈ chart, r.farm_id = f ∧ cond r) ↔ ∃ v, (f, v) ∈ m)

theorem latest_inv_set {chart : List FeatureRow} {m : List (String × FeatureRow)}
    {cond : FeatureRow → Prop} {row : FeatureRow} {fid : String}
    (hrowid : row.farm_id = fid) (hcond : cond row)
    (hinv : LatestInv chart m cond)
    (hmaxold : ∀ r ∈ chart, r.farm_id = fid → cond r → r.hour_utc ≤ row.hour_utc) :
    LatestInv (chart ++ [row]) (dict_set m fid row) cond := by
  obtain ⟨hnd, hent, hiff⟩ := hinv
  refine ⟨dict_set_nodup fid row hnd, ?_, ?_⟩
  · intro kv hkv
    rcases (mem_dict_set_iff hnd fid row kv).mp hkv with heq | ⟨hmem, hne⟩
    · subst heq
      refine ⟨List.mem_append.mpr (Or.inr (List.mem_singleton.mpr rfl)),
        hrowid, hcond, ?_⟩
      intro r hr hfr hcr
      rcases List.mem_append.mp hr with h | h
      · exact hmaxold r h hfr hcr
      · rw [List.mem_singleton.mp h]
    · obtain ⟨hc, hfi, hcd, hmax⟩ := hent kv hmem
      refine ⟨List.mem_append.mpr (Or.inl hc), hfi, hcd, ?_⟩
      intro r hr hfr hcr
      rcases List.mem_append.mp hr with h | h
      · exact hmax r h hfr hcr
      · exfalso
        rw [List.mem_singleton.mp h] at hfr
        exact hne (by rw [← hfr, hrowid])
  · intro f
    by_cases hf : f = fid
    · subst hf
      constructor
      · intro _
        exact ⟨row, (mem_dict_set_iff hnd f row (f, row)).mpr (Or.inl rfl)⟩
      · intro _
        exact ⟨row, List.mem_append.mpr (Or.inr (List.mem_singleton.mpr rfl)),
          hrowid, hcond⟩
    · constructor
      · rintro ⟨r, hr, hfr, hcr⟩
        rcases List.mem_append.mp hr with h | h
        · rcases (hiff f).mp ⟨r, h, hfr, hcr⟩ with ⟨v, hv⟩
          exact ⟨v, (mem_dict_set_iff hnd fid row (f, v)).mpr (Or.inr ⟨hv, hf⟩)⟩
        · exfalso
          rw [List.mem_singleton.mp h] at hfr
          exact hf (by rw [← hfr, hrowid])
      · rintro ⟨v, hv⟩
        rcases (mem_dict_set_iff hnd fid row (f, v)).mp hv with heq | ⟨hvm, _⟩
        · exact absurd (congrArg Prod.fst heq) hf
        · rcases (hiff f).mpr ⟨v, hvm⟩ with ⟨r, hr, hfr, hcr⟩
          exact ⟨r, List.mem_append.mpr (Or.inl hr), hfr, hcr⟩

theorem latest_inv_keep {chart : List FeatureRow} {m : List (String × FeatureRow)}
    {cond : FeatureRow → Prop} {row : FeatureRow}
    (hinv : LatestInv chart m cond)
    (hkeep : ∀ v, (row.farm_id, v) ∈ m → cond row → row.hour_utc ≤ v.hour_utc)
    (hpresent : cond row → ∃ v, (row.farm_id, v) ∈ m) :
    LatestInv (chart ++ [row]) m cond := by
  obtain ⟨hnd, hent, hiff⟩ := hinv
  refine ⟨hnd, ?_, ?_⟩
  · intro kv hkv
    obtain ⟨hc, hfi, hcd, hmax⟩ := hent kv hkv
    refine ⟨List.mem_append.mpr (Or.inl hc), hfi, hcd, ?_⟩
    intro r hr hfr hcr
    rcases List.mem_append.mp hr with h | h
    · exact hmax r h hfr hcr
    · rw [List.mem_singleton.mp h] at hfr hcr ⊢
      have hkm : (row.farm_id, kv.2) ∈ m := by
        rw [hfr]
        simpa using hkv
      exact hkeep kv.2 hkm hcr
  · intro f
    constructor
    · rintro ⟨r, hr, hfr, hcr⟩
      rcases List.mem_append.mp hr with h | h
      · exact (hiff f).mp ⟨r, h, hfr, hcr⟩
      · rw [List.mem_singleton.mp h] at hfr hcr
        rcases hpresent hcr with ⟨v, hv⟩
        exact ⟨v, by rw [← hfr]; exact hv⟩
    · intro h
      rcases (hiff f).mpr h with ⟨r, hr, hfr, hcr⟩
      exact ⟨r, List.mem_append.mpr (Or.inl hr), hfr, hcr⟩

theorem update_latest_inv {chart : List FeatureRow} {m : List (String × FeatureRow)}
    {cond : FeatureRow → Prop} {row : FeatureRow} {fid : String}
    (hrowid : row.farm_id = fid) (hcond : cond row)
    (hinv : LatestInv chart m cond) :
    LatestInv (chart ++ [row]) (update_latest m fid row) cond := by
  obtain ⟨hnd, hent, hiff⟩ := hinv
  unfold update_latest
  rcases hget : dict_get m fid with _ | latest
  · show LatestInv (chart ++ [row]) (dict_set m fid row) cond
    have habs := (dict_get_eq_none m fid).mp hget
    refine latest_inv_set hrowid hcond ⟨hnd, hent, hiff⟩ ?_
    intro r hr hfr hcr
    exfalso
    rcases (hiff fid).mp ⟨r, hr, hfr, hcr⟩ with ⟨v, hv⟩
    exact habs (fid, v) hv rfl
  · show LatestInv (chart ++ [row])
      (if latest.hour_utc < row.hour_utc then dict_set m fid row else m) cond
    have hlm : (fid, latest) ∈ m := dict_get_mem hget
    by_cases hlt : latest.hour_utc < row.hour_utc
    · rw [if_pos hlt]
      refine latest_inv_set hrowid hcond ⟨hnd, hent, hiff⟩ ?_
      intro r hr hfr hcr
      exact le_trans ((hent (fid, latest) hlm).2.2.2 r hr hfr hcr) (le_of_lt hlt)
    · rw [if_neg hlt]
      refine latest_inv_keep ⟨hnd, hent, hiff⟩ ?_ ?_
      · intro v hv _
        have hveq : v = latest := by
          have h2 : (fid, v) ∈ m := by rw [← hrowid]; exact hv
          have h3 : (fid, latest) ∈ m := hlm
          have := keys_nodup_unique hnd h2 h3
          exact this
        rw [hveq]
        exact le_of_not_lt hlt
      · intro _
        exact ⟨latest, by rw [hrowid]; exact hlm⟩

theorem update_skip_inv {chart : List FeatureRow} {m : List (String × FeatureRow)}
    {cond : FeatureRow → Prop} {row : FeatureRow}
    (hinv : LatestInv chart m cond) (hnc : ¬ cond row) :
    LatestInv (chart ++ [row]) m cond :=
  latest_inv_keep hinv (fun _ _ hc => absurd hc hnc) (fun hc => absurd hc hnc)

/-- The two accumulator maps of the farm loop, both tied to the chart. -/
def StateInv (now_utc : ℤ) (st : LoopState) : Prop :=
  LatestInv st.chart st.latest (fun _ => True) ∧
  LatestInv st.chart st.latest_observed (fun r => r.hour_utc ≤ now_utc)

theorem latest_inv_nil (cond : FeatureRow → Prop) : LatestInv [] [] cond := by
  refine ⟨by simp, by simp, ?_⟩
  intro f
  constructor
  · rintro ⟨r, hr, _⟩
    cases hr
  · rintro ⟨v, hv⟩
    cases hv

theorem hour_step_state_inv (haversine : ℚ → ℚ → ℚ → ℚ → ℚ)
    (firms_rows : List FireRow) (fire_radius_km : ℚ)
    (fire_window_hours now_utc : ℤ) (farm : FarmAsset) (crop_f : ℚ)
    (cdl_row : Option CdlRow) (st : LoopState) (w : WeatherRow)
    (hinv : StateInv now_utc st) :
    StateInv now_utc (hour_step haversine firms_rows fire_radius_km
      fire_window_hours now_utc farm crop_f cdl_row st w) := by
  unfold hour_step
  rcases hdt : to_dt w.event_hour_utc with _ | eh
  · exact hinv
  · refine ⟨?_, ?_⟩
    · exact update_latest_inv rfl trivial hinv.1
    · dsimp only
      by_cases hle : eh ≤ now_utc
      · rw [if_pos hle]
        exact update_latest_inv rfl hle hinv.2
      · rw [if_neg hle]
        exact update_skip_inv hinv.2 hle

theorem foldl_hour_step_state_inv (haversine : ℚ → ℚ → ℚ → ℚ → ℚ)
    (firms_rows : List FireRow) (fire_radius_km : ℚ)
    (fire_window_hours now_utc : ℤ) (farm : FarmAsset) (crop_f : ℚ)
    (cdl_row : Option CdlRow) :
    ∀ (series : List WeatherRow) (st : LoopState), StateInv now_utc st →
      StateInv now_utc (series.foldl (hour_step haversine firms_rows
        fire_radius_km fire_window_hours now_utc farm crop_f cdl_row) st) := by
  intro series
  induction series with
  | nil => intro st h; exact h
  | cons w ws ih =>
    intro st h
    simp only [List.foldl_cons]
    exact ih _ (hour_step_state_inv haversine firms_rows fire_radius_km
      fire_window_hours now_utc farm crop_f cdl_row st w h)

theorem foldl_farm_step_state_inv (haversine : ℚ → ℚ → ℚ → ℚ → ℚ)
    (firms_rows : List FireRow) (fire_radius_km : ℚ)
    (fire_window_hours now_utc : ℤ) (cdl_rows : List CdlRow)
    (weather_by_coord : List ((ℚ × ℚ) × List WeatherRow)) :
    ∀ (farms : List FarmAsset) (st : LoopState), StateInv now_utc st →
      StateInv now_utc (farms.foldl (farm_step haversine firms_rows
        fire_radius_km fire_window_hours now_utc cdl_rows weather_by_coord) st) := by
  intro farms
  induction farms with
  | nil => intro st h; exact h
  | cons farm fs ih =>
    intro st h
    simp only [List.foldl_cons]
    refine ih _ ?_
    unfold farm_step
    by_cases hempty : (nearest_weather_series haversine farm weather_by_coord).isEmpty
    · rw [if_pos hempty]
      exact h
    · rw [if_neg hempty]
      exact foldl_hour_step_state_inv haversine firms_rows fire_radius_km
        fire_window_hours now_utc farm _ _ _ st h

theorem filter_farm_id_length (f : String) :
    ∀ (L : List FarmStatus), (L.map (fun s => s.farm_id)).Nodup →
      (((L.filter (fun s => s.farm_id == f)).length = 1) ↔
        ∃ s ∈ L, s.farm_id = f) := by
  intro L
  induction L with
  | nil => intro _; simp
  | cons x xs ih =>
    intro hnd
    simp only [List.map_cons, List.nodup_cons] at hnd
    by_cases hx : x.farm_id = f
    · have hxs : xs.filter (fun s => s.farm_id == f) = [] := by
        rw [List.filter_eq_nil_iff]
        intro s hs
        simp only [beq_iff_eq]
        intro hsf
        apply hnd.1
        rw [hx, ← hsf]
        exact List.mem_map.mpr ⟨s, hs, rfl⟩
      rw [List.filter_cons_of_pos (by simpa using hx), hxs]
      exact iff_of_true rfl ⟨x, List.mem_cons_self x xs, hx⟩
    · rw [List.filter_cons_of_neg (by simpa using hx)]
      rw [ih hnd.2]
      constructor
      · rintro ⟨s, hs, hsf⟩
        exact ⟨s, List.mem_cons_of_mem x hs, hsf⟩
      · rintro ⟨s, hs, hsf⟩
        rcases List.mem_cons.mp hs with heq | hmem
        · exact absurd (heq ▸ hsf) hx
        · exact ⟨s, hmem, hsf⟩

/-- Extracting the per-farm status facts out of a `LatestInv`. -/
theorem status_of_inv {chart : List FeatureRow} {M : List (String × FeatureRow)}
    {cond : FeatureRow → Prop} (hinv : LatestInv chart M cond) (f : String) :
    (((M.map (fun kv => to_farm_status kv.2)).filter
        (fun s => s.farm_id == f)).length = 1 ↔
      ∃ r ∈ chart, r.farm_id = f ∧ cond r) ∧
    ∀ s ∈ M.map (fun kv => to_farm_status kv.2), s.farm_id = f →
      ∃ r ∈ chart, r.farm_id = f ∧ cond r ∧ s = to_farm_status r ∧
        ∀ r2 ∈ chart, r2.farm_id = f → cond r2 → r2.hour_utc ≤ r.hour_utc := by
  obtain ⟨hnd, hent, hiff⟩ := hinv
  have hids : (M.map (fun kv => to_farm_status kv.2)).map (fun s => s.farm_id) =
      M.map Prod.fst := by
    rw [List.map_map]
    exact List.map_congr_left (fun kv hkv => (hent kv hkv).2.1)
  constructor
  · rw [filter_farm_id_length f _ (by rw [hids]; exact hnd)]
    constructor
    · rintro ⟨s, hs, hsf⟩
      rcases List.mem_map.mp hs with ⟨kv, hkv, hskv⟩
      obtain ⟨hc, hfi, hcd, _⟩ := hent kv hkv
      refine ⟨kv.2, hc, ?_, hcd⟩
      rw [← hskv] at hsf
      exact hsf
    · intro h
      rcases (hiff f).mp h with ⟨v, hv⟩
      exact ⟨to_farm_status v, List.mem_map.mpr ⟨(f, v), hv, rfl⟩,
        (hent (f, v) hv).2.1⟩
  · intro s hs hsf
    rcases List.mem_map.mp hs with ⟨kv, hkv, hskv⟩
    obtain ⟨hc, hfi, hcd, hmax⟩ := hent kv hkv
    have hkf : kv.2.farm_id = f := by
      rw [← hskv] at hsf
      exact hsf
    refine ⟨kv.2, hc, hkf, hcd, hskv.symm, ?_⟩
    intro r2 h2 hf2 hc2
    refine hmax r2 h2 ?_ hc2
    rw [hf2, ← hkf]
    exact hfi

/-- The current-status selection facts, stated over the raw loop results. -/
theorem status_tables_spec (chart : List FeatureRow)
    (latest latest_observed : List (String × FeatureRow)) (now_utc : ℤ)
    (f : String)
    (hA : LatestInv chart latest (fun _ => True))
    (hB : LatestInv chart latest_observed (fun r => r.hour_utc ≤ now_utc)) :
    ((∃ r ∈ sort_chart chart, r.hour_utc ≤ now_utc) →
      ((((sort_status ((if latest_observed.isEmpty then latest
            else latest_observed).map (fun kv => to_farm_status kv.2))).filter
          (fun s => s.farm_id == f)).length = 1 ↔
         ∃ r ∈ sort_chart chart, r.farm_id = f ∧ r.hour_utc ≤ now_utc) ∧
       ∀ s ∈ sort_status ((if latest_observed.isEmpty then latest
            else latest_observed).map (fun kv => to_farm_status kv.2)),
         s.farm_id = f →
         ∃ r ∈ sort_chart chart, r.farm_id = f ∧ r.hour_utc ≤ now_utc ∧
           s = to_farm_status r ∧
           ∀ r2 ∈ sort_chart chart, r2.farm_id = f → r2.hour_utc ≤ now_utc →
             r2.hour_utc ≤ r.hour_utc)) ∧
    ((¬ ∃ r ∈ sort_chart chart, r.hour_utc ≤ now_utc) →
      ((((sort_status ((if latest_observed.isEmpty then latest
            else latest_observed).map (fun kv => to_farm_status kv.2))).filter
          (fun s => s.farm_id == f)).length = 1 ↔
         ∃ r ∈ sort_chart chart, r.farm_id = f) ∧
       ∀ s ∈ sort_status ((if latest_observed.isEmpty then latest
            else latest_observed).map (fun kv => to_farm_status kv.2)),
         s.farm_id = f →
         ∃ r ∈ sort_chart chart, r.farm_id = f ∧ s = to_farm_status r ∧
           ∀ r2 ∈ sort_chart chart, r2.farm_id = f →
             r2.hour_utc ≤ r.hour_utc)) := by
  have hmemC : ∀ r : FeatureRow, r ∈ sort_chart chart ↔ r ∈ chart := by
    intro r
    exact List.mem_mergeSort
  have hmemS : ∀ (L : List FarmStatus) (s : FarmStatus),
      s ∈ sort_status L ↔ s ∈ L := by
    intro L s
    exact List.mem_mergeSort
  have hflen : ∀ (L : List FarmStatus),
      ((sort_status L).filter (fun s => s.farm_id == f)).length =
      (L.filter (fun s => s.farm_id == f)).length := by
    intro L
    exact ((List.mergeSort_perm L _).filter (fun s => s.farm_id == f)).length_eq
  rcases hcase : latest_observed.isEmpty with _ | _
  · -- observed map non-empty
    rw [if_neg Bool.false_ne_true]
    have hobs := status_of_inv hB f
    constructor
    · intro _
      constructor
      · rw [hflen]
        rw [hobs.1]
        constructor
        · rintro ⟨r, hr, hrf, hrc⟩
          exact ⟨r, (hmemC r).mpr hr, hrf, hrc⟩
        · rintro ⟨r, hr, hrf, hrc⟩
          exact ⟨r, (hmemC r).mp hr, hrf, hrc⟩
      · intro s hs hsf
        rcases hobs.2 s ((hmemS _ s).mp hs) hsf with ⟨r, hr, hrf, hrc, hsr, hmax⟩
        exact ⟨r, (hmemC r).mpr hr, hrf, hrc, hsr,
          fun r2 h2 hf2 hc2 => hmax r2 ((hmemC r2).mp h2) hf2 hc2⟩
    · intro hnone
      exfalso
      have hne : latest_observed ≠ [] := by
        intro hnil
        rw [hnil] at hcase
        simp at hcase
      rcases List.exists_mem_of_ne_nil latest_observed hne with ⟨kv, hkv⟩
      rcases (hB.2.2 kv.1).mpr ⟨kv.2, by simpa using hkv⟩ with ⟨r, hr, _, hrc⟩
      exact hnone ⟨r, (hmemC r).mpr hr, hrc⟩
  · -- observed map empty
    rw [if_pos rfl]
    have hlat := status_of_inv hA f
    have hnoobs : ¬ ∃ r ∈ sort_chart chart, r.hour_utc ≤ now_utc := by
      rintro ⟨r, hr, hrc⟩
      have hnil : latest_observed = [] := List.isEmpty_iff.mp hcase
      rcases (hB.2.2 r.farm_id).mp ⟨r, (hmemC r).mp hr, rfl, hrc⟩ with ⟨v, hv⟩
      rw [hnil] at hv
      cases hv
    constructor
    · intro hex
      exact absurd hex hnoobs
    · intro _
      constructor
      · rw [hflen]
        rw [hlat.1]
        constructor
        · rintro ⟨r, hr, hrf, _⟩
          exact ⟨r, (hmemC r).mpr hr, hrf⟩
        · rintro ⟨r, hr, hrf⟩
          exact ⟨r, (hmemC r).mp hr, hrf, trivial⟩
      · intro s hs hsf
        rcases hlat.2 s ((hmemS _ s).mp hs) hsf with ⟨r, hr, hrf, _, hsr, hmax⟩
        exact ⟨r, (hmemC r).mpr hr, hrf, hsr,
          fun r2 h2 hf2 => hmax r2 ((hmemC r2).mp h2) hf2 trivial⟩

/-- C2 (amended): the preference for observed hours is per farm but the
fallback is global.  When at least one emitted row has an hour not after the
evaluation instant, the current-status table has exactly one row per farm
with such a row — that farm's latest-by-hour row among them — and no row at
all for a farm whose rows are all in the future; only when no emitted row is
observed does the table fall back to each farm's unconditional latest-by-hour
row. -/
theorem C2_amended_status_selection (haversine : ℚ → ℚ → ℚ → ℚ → ℚ)
    (farms : List FarmAsset) (firms_rows : List FireRow)
    (weather_rows : List WeatherRow) (cdl_rows : List CdlRow)
    (fire_radius_km : ℚ) (fire_window_hours now_utc : ℤ) (f : String)
    (out : PlotTables)
    (hout : out = build_plot_tables haversine farms firms_rows weather_rows
      cdl_rows fire_radius_km fire_window_hours now_utc) :
    ((∃ r ∈ out.chart_farm_timeseries, r.hour_utc ≤ now_utc) →
      (((out.map_farm_status.filter (fun s => s.farm_id == f)).length = 1 ↔
         ∃ r ∈ out.chart_farm_timeseries, r.farm_id = f ∧ r.hour_utc ≤ now_utc) ∧
       ∀ s ∈ out.map_farm_status, s.farm_id = f →
         ∃ r ∈ out.chart_farm_timeseries, r.farm_id = f ∧ r.hour_utc ≤ now_utc ∧
           s = to_farm_status r ∧
           ∀ r2 ∈ out.chart_farm_timeseries, r2.farm_id = f →
             r2.hour_utc ≤ now_utc → r2.hour_utc ≤ r.hour_utc)) ∧
    ((¬ ∃ r ∈ out.chart_farm_timeseries, r.hour_utc ≤ now_utc) →
      (((out.map_farm_status.filter (fun s => s.farm_id == f)).length = 1 ↔
         ∃ r ∈ out.chart_farm_timeseries, r.farm_id = f) ∧
       ∀ s ∈ out.map_farm_status, s.farm_id = f →
         ∃ r ∈ out.chart_farm_timeseries, r.farm_id = f ∧ s = to_farm_status r ∧
           ∀ r2 ∈ out.chart_farm_timeseries, r2.farm_id = f →
             r2.hour_utc ≤ r.hour_utc)) := by
  subst hout
  have hinv := foldl_farm_step_state_inv haversine firms_rows fire_radius_km
    fire_window_hours now_utc cdl_rows (group_weather_by_coord weather_rows)
    farms { chart := [], latest := [], latest_observed := [] }
    ⟨latest_inv_nil _, latest_inv_nil _⟩
  exact status_tables_spec _ _ _ now_utc f hinv.1 hinv.2

/-- Counterexample to C2 as stated: at `now = 0`, farm_b yields a (forecast,
hour 7200) feature row, and farm_a has an observed row, so the global
`latest_observed_by_farm if latest_observed_by_farm else latest_by_farm`
fallback picks the observed map for every farm — farm_b gets NO
current-status row, where the claim (per-farm fallback) requires exactly
one. -/
theorem C2_forecast_only_farm_dropped :
    ((build_plot_tables dist_sq [sample_farm_a, sample_farm_b] []
        [sample_weather_a, sample_weather_c] [] 50 24 0).chart_farm_timeseries.filter
      (fun r => r.farm_id == "farm_b")).length = 1 ∧
    ((build_plot_tables dist_sq [sample_farm_a, sample_farm_b] []
        [sample_weather_a, sample_weather_c] [] 50 24 0).map_farm_status.filter
      (fun s => s.farm_id == "farm_b")).length = 0 := by
  have hne : ¬ (("farm_a" : String) = "farm_b") := by decide
  have hne2 : ¬ (("farm_b" : String) = "farm_a") := by decide
  have hbe : ((("farm_a" : String) == "farm_b")) = false := by decide
  have hbe2 : ((("farm_b" : String) == "farm_b")) = true := by decide
  have hsle : str_le "farm_a" "farm_b" = true := by decide
  constructor <;>
    norm_num [hne, hne2, hbe, hbe2, hsle, build_plot_tables, farms_by_id_of,
      group_weather_by_coord, group_step, group_add, sort_series,
      nearest_weather_series, nearest_step, farm_step, hour_step, to_dt,
      raw_key, dict_set, dict_get, cdl_lookup_get, crop_factor_grape,
      match_fires_for_window, compute_feature_row, min_default, py_or, clip01,
      top_driver, risk_level, py_round, rhe, update_latest, to_farm_status,
      sort_chart, sort_status, List.mergeSort, List.merge, Prod.mk.injEq,
      Prod.ext_iff, Prod.fst_zero, Prod.snd_zero,
      sample_farm_a, sample_farm_b, sample_weather_a, sample_weather_c, dist_sq]

/-- Witness for the amended C2: the one-farm sample run at `now = 0` has an
observed row, and farm_a's status row facts hold. -/
theorem C2_amended_status_selection_witness :
    (((build_plot_tables dist_zero [sample_farm_a] [] [sample_weather_a] []
        50 24 0).map_farm_status.filter
      (fun s => s.farm_id == "farm_a")).length = 1 ↔
      ∃ r ∈ (build_plot_tables dist_zero [sample_farm_a] [] [sample_weather_a]
        [] 50 24 0).chart_farm_timeseries,
        r.farm_id = "farm_a" ∧ r.hour_utc ≤ 0) ∧
    ∀ s ∈ (build_plot_tables dist_zero [sample_farm_a] [] [sample_weather_a]
        [] 50 24 0).map_farm_status, s.farm_id = "farm_a" →
      ∃ r ∈ (build_plot_tables dist_zero [sample_farm_a] [] [sample_weather_a]
        [] 50 24 0).chart_farm_timeseries,
        r.farm_id = "farm_a" ∧ r.hour_utc ≤ 0 ∧ s = to_farm_status r ∧
        ∀ r2 ∈ (build_plot_tables dist_zero [sample_farm_a] []
          [sample_weather_a] [] 50 24 0).chart_farm_timeseries,
          r2.farm_id = "farm_a" → r2.hour_utc ≤ 0 → r2.hour_utc ≤ r.hour_utc :=
  (C2_amended_status_selection dist_zero [sample_farm_a] [] [sample_weather_a]
    [] 50 24 0 "farm_a" _ rfl).1
    ⟨sample_row_a,
      by rw [sample_run_a_chart_eq]; exact List.mem_singleton.mpr rfl,
      le_refl 0⟩
